import Mathlib

/-!
Shallow embedding of the CHIP-8 interpreter from `src/chip8/cpu.py` and of the
screen collaborator from `src/chip8/screen.py`, together with proofs settling
the frozen claims about the specification.

Modelling conventions:
* Python ints are `Nat` (all values handled by the interpreter are
  non-negative in every state the claims quantify over; where Python could go
  negative the relevant theorem carries the hypotheses that rule it out).
* The 16-entry register lists `v`/`rpl` and the 4096-entry `bytearray` memory
  are total functions `Nat → Nat` updated pointwise; claims about memory carry
  the in-bounds hypotheses stated in the spec.
* The pygame surface is modelled by its observable state: the color index last
  written at each (unscaled) coordinate, plus a counter of `display.flip`
  calls.  `get_screen_pixel` compares the stored color against color 0 exactly
  as the source does.
* Python exceptions (`UnknownOpCodeException`) become `Except`; the error
  value carries the offending operand together with the machine state at raise
  time (Python does not roll state back when an exception propagates).
* External inputs (pressed keys, the blocking key wait, `randint`) are
  supplied by an explicit context `Ctx`.
-/

namespace Chip8

/-- Modelled from the spec: the `addresses` module imported by `cpu.py`
(`from addresses import *`) is not part of the sources; its mask and opcode
constants are reconstructed from spec section 4.1 (bit-field decoding: top
nibble bits 15-12, register-X nibble bits 11-8, register-Y nibble bits 7-4,
low nibble bits 3-0, low byte bits 7-0, 12-bit address bits 11-0) and from the
opcode catalogue of section 4.7 for the 0x0-group comparisons
(00Cn scroll down, 00E0 clear, 00EE return, 00FB/00FC scroll, 00FD exit,
00FE normal mode, 00FF extended mode). -/
def ADDRESS_1 : Nat := 0xF000

/-- Modelled from the spec: low-byte mask, also the literal 0xFF compared
against for the enable-extended opcode 00FF. -/
def ADDRESS_2 : Nat := 0x00FF

/-- Modelled from the spec: register-X nibble mask (bits 11-8). -/
def ADDRESS_3 : Nat := 0x0F00

/-- Modelled from the spec: register-Y nibble mask (bits 7-4). -/
def ADDRESS_4 : Nat := 0x00F0

/-- Modelled from the spec: high-nibble pattern of the 00Cn scroll-down
opcodes. -/
def ADDRESS_5 : Nat := 0xC0

/-- Modelled from the spec: low nibble mask (bits 3-0). -/
def ADDRESS_6 : Nat := 0x000F

/-- Modelled from the spec: low byte of the clear-display opcode 00E0. -/
def ADDRESS_7 : Nat := 0xE0

/-- Modelled from the spec: low byte of the return-from-subroutine opcode
00EE. -/
def ADDRESS_8 : Nat := 0xEE

/-- Modelled from the spec: low byte of the scroll-right opcode 00FB. -/
def ADDRESS_9 : Nat := 0xFB

/-- Modelled from the spec: low byte of the scroll-left opcode 00FC. -/
def ADDRESS_10 : Nat := 0xFC

/-- Modelled from the spec: low byte of the exit opcode 00FD (a no-op in the
source). -/
def ADDRESS_11 : Nat := 0xFD

/-- Modelled from the spec: low byte of the disable-extended opcode 00FE. -/
def ADDRESS_12 : Nat := 0xFE

/-- Modelled from the spec: 12-bit address mask (bits 11-0). -/
def ADDRESS_13 : Nat := 0x0FFF

/-- Modelled from the spec: high-byte mask (bits 15-8). -/
def ADDRESS_14 : Nat := 0xFF00

/-- Embeds MAX_MEMORY (cpu.py line 8). -/
def MAX_MEMORY : Nat := 4096

/-- Embeds STACK_POINTER_START (cpu.py line 11). -/
def STACK_POINTER_START : Nat := 0x52

/-- Embeds PROGRAM_COUNTER_START (cpu.py line 14). -/
def PROGRAM_COUNTER_START : Nat := 0x200

/-- Embeds NUM_REGISTERS (cpu.py line 37). -/
def NUM_REGISTERS : Nat := 0x10

/-- Embeds the MODE_NORMAL / MODE_EXTENDED string constants (cpu.py lines
40-41) as an enumeration. -/
inductive CpuMode where
  | normal
  | extended
deriving DecidableEq

/-- Pointwise update of a function, embedding Python list/bytearray item
assignment `xs[i] = val`. -/
def updateAt (f : Nat → Nat) (i v : Nat) : Nat → Nat :=
  fun j => if j = i then v else f j

/-- Embeds the observable state of `screen.Screen` (screen.py): current
height/width, the color index last drawn at each unscaled pixel coordinate
(the pygame surface contents), and the number of `display.flip` calls (the
commit counter of the draw contract). -/
structure Screen where
  screen_height : Nat
  screen_width : Nat
  pixels : Nat → Nat → Nat
  flips : Nat

/-- Embeds Screen.get_screen_pixel (screen.py lines 90-106): the stored color
is compared against color 0; anything else reads as 1. -/
def get_screen_pixel (scr : Screen) (x y : Nat) : Nat :=
  if scr.pixels x y = 0 then 0 else 1

/-- Embeds Screen.draw_screen_pixel (screen.py lines 72-88): record the color
index drawn at the coordinate (scaling only multiplies both sides of every
coordinate comparison by the same positive ratio, so it is dropped). -/
def draw_screen_pixel (scr : Screen) (x y c : Nat) : Screen :=
  { scr with pixels := fun a b => if a = x ∧ b = y then c else scr.pixels a b }

/-- Embeds the static Screen.update_screen (screen.py lines 114-122):
`display.flip`, counted. -/
def update_screen (scr : Screen) : Screen :=
  { scr with flips := scr.flips + 1 }

/-- Embeds Screen.clear_screen (screen.py lines 108-112): fill with color 0,
no flip. -/
def clear_screen (scr : Screen) : Screen :=
  { scr with pixels := fun _ _ => 0 }

/-- Embeds Screen.init_display (screen.py lines 56-70): the surface is filled
with color 0 and the display flipped once. -/
def init_display (scr : Screen) : Screen :=
  update_screen { scr with pixels := fun _ _ => 0 }

/-- Embeds Screen.set_screen_extended (screen.py lines 124-131): switch to the
128x64 geometry and reinitialize the display. -/
def set_screen_extended (scr : Screen) : Screen :=
  init_display { scr with screen_height := 64, screen_width := 128 }

/-- Embeds Screen.set_screen_normal (screen.py lines 133-140): switch to the
64x32 geometry and reinitialize the display. -/
def set_screen_normal (scr : Screen) : Screen :=
  init_display { scr with screen_height := 32, screen_width := 64 }

/-- Embeds Screen.scroll_screen_down (screen.py lines 142-158).  The source
loops call helpers named `get_pixel`/`draw_pixel`; the Screen class only
defines `get_screen_pixel`/`draw_screen_pixel`, and those are used here.  The
copy loop runs y from `screen_height - n` down to 0 writing (x, y+n), then the
top n rows are blanked, then the display flips. -/
def scroll_screen_down (scr : Screen) (n : Nat) : Screen :=
  let scr1 := ((List.range (scr.screen_height - n + 1)).reverse).foldl
    (fun acc y =>
      (List.range acc.screen_width).foldl
        (fun acc2 x =>
          draw_screen_pixel acc2 x (y + n) (get_screen_pixel acc2 x y)) acc)
    scr
  let scr2 := (List.range n).foldl
    (fun acc y =>
      (List.range acc.screen_width).foldl
        (fun acc2 x => draw_screen_pixel acc2 x y 0) acc)
    scr1
  update_screen scr2

/-- Embeds Screen.scroll_screen_left (screen.py lines 160-174), with the same
helper-name note as scroll_screen_down. -/
def scroll_screen_left (scr : Screen) : Screen :=
  let scr1 := (List.range scr.screen_height).foldl
    (fun acc y =>
      ((List.range acc.screen_width).drop 4).foldl
        (fun acc2 x =>
          draw_screen_pixel acc2 (x - 4) y (get_screen_pixel acc2 x y)) acc)
    scr
  let scr2 := (List.range scr1.screen_height).foldl
    (fun acc y =>
      ((List.range acc.screen_width).drop (acc.screen_width - 4)).foldl
        (fun acc2 x => draw_screen_pixel acc2 x y 0) acc)
    scr1
  update_screen scr2

/-- Embeds Screen.scroll_screen_right (screen.py lines 176-190), with the same
helper-name note as scroll_screen_down. -/
def scroll_screen_right (scr : Screen) : Screen :=
  let scr1 := (List.range scr.screen_height).foldl
    (fun acc y =>
      ((List.range (acc.screen_width - 4 + 1)).reverse).foldl
        (fun acc2 x =>
          draw_screen_pixel acc2 (x + 4) y (get_screen_pixel acc2 x y)) acc)
    scr
  let scr2 := (List.range scr1.screen_height).foldl
    (fun acc y =>
      (List.range 4).foldl
        (fun acc2 x => draw_screen_pixel acc2 x y 0) acc)
    scr1
  update_screen scr2

/-- Embeds the mutable state owned by `cpu.CPU` (cpu.py lines 66-150): the
register dictionary (v, index, sp, pc, rpl), the timer dictionary, the current
operand, the mode flag, the 4096-byte memory and the screen collaborator. -/
structure CPUState where
  v : Nat → Nat
  index : Nat
  sp : Nat
  pc : Nat
  rpl : Nat → Nat
  delay : Nat
  sound : Nat
  operand : Nat
  mode : CpuMode
  memory : Nat → Nat
  screen : Screen

/-- External inputs of the interpreter: `pressed k` is whether the physical
key mapped to CHIP-8 key `k` by KEY_MAPPINGS is currently down
(`key.get_pressed()[KEY_MAPPINGS[k]]`), `waitKey` is the key index that
eventually ends the blocking wait of Fx0A, and `rand` is the `randint(0,255)`
draw of Cxnn. -/
structure Ctx where
  pressed : Nat → Bool
  waitKey : Nat
  rand : Nat

/-- Embeds cpu_jump_to_address (cpu.py lines 281-291): 1nnn. -/
def cpu_jump_to_address (s : CPUState) : CPUState :=
  { s with pc := s.operand &&& ADDRESS_13 }

/-- Embeds cpu_jump_to_subroutine (cpu.py lines 293-307): 2nnn pushes the low
byte of PC at SP and the high byte at SP+1, advances SP by 2, then jumps. -/
def cpu_jump_to_subroutine (s : CPUState) : CPUState :=
  let m1 := updateAt s.memory s.sp (s.pc &&& ADDRESS_2)
  let m2 := updateAt m1 (s.sp + 1) ((s.pc &&& ADDRESS_14) >>> 8)
  { s with memory := m2, sp := s.sp + 2, pc := s.operand &&& ADDRESS_13 }

/-- Embeds cpu_skip_if_reg_equal_val (cpu.py lines 309-324): 3snn. -/
def cpu_skip_if_reg_equal_val (s : CPUState) : CPUState :=
  let cpu_source := (s.operand &&& ADDRESS_3) >>> 8
  if s.v cpu_source = (s.operand &&& ADDRESS_2) then { s with pc := s.pc + 2 } else s

/-- Embeds cpu_skip_if_reg_not_equal_val (cpu.py lines 326-341): 4snn. -/
def cpu_skip_if_reg_not_equal_val (s : CPUState) : CPUState :=
  let cpu_source := (s.operand &&& ADDRESS_3) >>> 8
  if s.v cpu_source ≠ (s.operand &&& ADDRESS_2) then { s with pc := s.pc + 2 } else s

/-- Embeds cpu_skip_if_reg_equal_reg (cpu.py lines 343-359): 5st0. -/
def cpu_skip_if_reg_equal_reg (s : CPUState) : CPUState :=
  let cpu_source := (s.operand &&& ADDRESS_3) >>> 8
  let cpu_target := (s.operand &&& ADDRESS_4) >>> 4
  if s.v cpu_source = s.v cpu_target then { s with pc := s.pc + 2 } else s

/-- Embeds cpu_move_value_to_reg (cpu.py lines 361-372): 6snn. -/
def cpu_move_value_to_reg (s : CPUState) : CPUState :=
  let cpu_target := (s.operand &&& ADDRESS_3) >>> 8
  { s with v := updateAt s.v cpu_target (s.operand &&& ADDRESS_2) }

/-- Embeds cpu_add_value_to_reg (cpu.py lines 374-386): 7snn, wrapping at
256. -/
def cpu_add_value_to_reg (s : CPUState) : CPUState :=
  let cpu_target := (s.operand &&& ADDRESS_3) >>> 8
  let temp := s.v cpu_target + (s.operand &&& ADDRESS_2)
  { s with v := updateAt s.v cpu_target (if temp < 256 then temp else temp - 256) }

/-- Embeds cpu_move_reg_into_reg (cpu.py lines 388-401): 8st0. -/
def cpu_move_reg_into_reg (s : CPUState) : CPUState :=
  let cpu_target := (s.operand &&& ADDRESS_3) >>> 8
  let cpu_source := (s.operand &&& ADDRESS_4) >>> 4
  { s with v := updateAt s.v cpu_target (s.v cpu_source) }

/-- Embeds cpu_logical_or (cpu.py lines 403-416): 8st1. -/
def cpu_logical_or (s : CPUState) : CPUState :=
  let cpu_target := (s.operand &&& ADDRESS_3) >>> 8
  let cpu_source := (s.operand &&& ADDRESS_4) >>> 4
  { s with v := updateAt s.v cpu_target (s.v cpu_target ||| s.v cpu_source) }

/-- Embeds cpu_logical_and (cpu.py lines 418-431): 8st2. -/
def cpu_logical_and (s : CPUState) : CPUState :=
  let cpu_target := (s.operand &&& ADDRESS_3) >>> 8
  let cpu_source := (s.operand &&& ADDRESS_4) >>> 4
  { s with v := updateAt s.v cpu_target (s.v cpu_target &&& s.v cpu_source) }

/-- Embeds cpu_exclusive_or (cpu.py lines 433-446): 8st3. -/
def cpu_exclusive_or (s : CPUState) : CPUState :=
  let cpu_target := (s.operand &&& ADDRESS_3) >>> 8
  let cpu_source := (s.operand &&& ADDRESS_4) >>> 4
  { s with v := updateAt s.v cpu_target (s.v cpu_target ^^^ s.v cpu_source) }

/-- Embeds cpu_add_reg_to_reg (cpu.py lines 448-469): 8st4; the target
register is written before the carry flag, as in the source. -/
def cpu_add_reg_to_reg (s : CPUState) : CPUState :=
  let cpu_target := (s.operand &&& ADDRESS_3) >>> 8
  let cpu_source := (s.operand &&& ADDRESS_4) >>> 4
  let temp := s.v cpu_target + s.v cpu_source
  if temp > 255 then
    let s1 := { s with v := updateAt s.v cpu_target (temp - 256) }
    { s1 with v := updateAt s1.v 0xF 1 }
  else
    let s1 := { s with v := updateAt s.v cpu_target temp }
    { s1 with v := updateAt s1.v 0xF 0 }

/-- Embeds cpu_subtract_reg_from_reg (cpu.py lines 471-494): 8st5.  The
source compares with strict `>`; the flag register is written before the
final store of the result into the target register. -/
def cpu_subtract_reg_from_reg (s : CPUState) : CPUState :=
  let cpu_target := (s.operand &&& ADDRESS_3) >>> 8
  let cpu_source := (s.operand &&& ADDRESS_4) >>> 4
  let cpu_source_reg := s.v cpu_source
  let cpu_target_reg := s.v cpu_target
  if cpu_target_reg > cpu_source_reg then
    let s1 := { s with v := updateAt s.v 0xF 1 }
    { s1 with v := updateAt s1.v cpu_target (cpu_target_reg - cpu_source_reg) }
  else
    let s1 := { s with v := updateAt s.v 0xF 0 }
    { s1 with v := updateAt s1.v cpu_target (256 + cpu_target_reg - cpu_source_reg) }

/-- Embeds cpu_right_shift_reg (cpu.py lines 496-510): 8s06. -/
def cpu_right_shift_reg (s : CPUState) : CPUState :=
  let cpu_source := (s.operand &&& ADDRESS_3) >>> 8
  let cpu_bit_zero := s.v cpu_source &&& 0x1
  let s1 := { s with v := updateAt s.v cpu_source (s.v cpu_source >>> 1) }
  { s1 with v := updateAt s1.v 0xF cpu_bit_zero }

/-- Embeds cpu_subtract_reg_from_reg1 (cpu.py lines 512-535): 8st7. -/
def cpu_subtract_reg_from_reg1 (s : CPUState) : CPUState :=
  let cpu_target := (s.operand &&& ADDRESS_3) >>> 8
  let cpu_source := (s.operand &&& ADDRESS_4) >>> 4
  let cpu_source_reg := s.v cpu_source
  let cpu_target_reg := s.v cpu_target
  if cpu_source_reg > cpu_target_reg then
    let s1 := { s with v := updateAt s.v 0xF 1 }
    { s1 with v := updateAt s1.v cpu_target (cpu_source_reg - cpu_target_reg) }
  else
    let s1 := { s with v := updateAt s.v 0xF 0 }
    { s1 with v := updateAt s1.v cpu_target (256 + cpu_source_reg - cpu_target_reg) }

/-- Embeds cpu_left_shift_reg (cpu.py lines 537-551): 8s0E exactly as written
in the source: the saved bit is `(v & 0x80) >> 8` (shift by eight, hence
always 0) and the register is doubled with no modulo-256 reduction. -/
def cpu_left_shift_reg (s : CPUState) : CPUState :=
  let cpu_source := (s.operand &&& ADDRESS_3) >>> 8
  let cpu_bit_seven := (s.v cpu_source &&& 0x80) >>> 8
  let s1 := { s with v := updateAt s.v cpu_source (s.v cpu_source <<< 1) }
  { s1 with v := updateAt s1.v 0xF cpu_bit_seven }

/-- Embeds cpu_skip_if_reg_not_equal_reg (cpu.py lines 553-569): 9st0. -/
def cpu_skip_if_reg_not_equal_reg (s : CPUState) : CPUState :=
  let cpu_source := (s.operand &&& ADDRESS_3) >>> 8
  let cpu_target := (s.operand &&& ADDRESS_4) >>> 4
  if s.v cpu_source ≠ s.v cpu_target then { s with pc := s.pc + 2 } else s

/-- Embeds cpu_load_index_reg_with_value (cpu.py lines 571-581): Annn. -/
def cpu_load_index_reg_with_value (s : CPUState) : CPUState :=
  { s with index := s.operand &&& ADDRESS_13 }

/-- Embeds cpu_jump_to_index_plus_value (cpu.py lines 583-594): Bnnn. -/
def cpu_jump_to_index_plus_value (s : CPUState) : CPUState :=
  { s with pc := s.index + (s.operand &&& ADDRESS_13) }

/-- Embeds cpu_generate_random_number (cpu.py lines 596-610): Ctnn with the
`randint(0,255)` draw supplied by the context. -/
def cpu_generate_random_number (ctx : Ctx) (s : CPUState) : CPUState :=
  let cpu_value := s.operand &&& ADDRESS_2
  let cpu_target := (s.operand &&& ADDRESS_3) >>> 8
  { s with v := updateAt s.v cpu_target (cpu_value &&& ctx.rand) }

/-- Sprite bit `xIdx` (0 = leftmost = MSB) of a memory byte, embedding
`int(bin(byte)[2:].zfill(8)[xIdx])` from the draw loops (cpu.py lines
668-678): for the byte values a `bytearray` can hold (0-255) the character at
position `xIdx` of the zero-padded 8-character binary string is bit
`7 - xIdx`. -/
def colorBit (byte xIdx : Nat) : Nat :=
  byte / 2 ^ (7 - xIdx) % 2

/-- Embeds one iteration of the inner pixel loop of cpu_draw_normal (cpu.py
lines 673-688): wrap the x coordinate, extract the sprite bit, read the
current pixel, resolve the XOR/collision cases and draw. -/
def cpu_draw_bit (x yCoord colorByte : Nat) (s : CPUState) (xIdx : Nat) : CPUState :=
  let xCoord := (x + xIdx) % s.screen.screen_width
  let color := colorBit colorByte xIdx
  let curr := get_screen_pixel s.screen xCoord yCoord
  if color = 1 ∧ curr = 1 then
    let s1 := { s with v := updateAt s.v 0xF (s.v 0xF ||| 1) }
    { s1 with screen := draw_screen_pixel s1.screen xCoord yCoord 0 }
  else if color = 0 ∧ curr = 1 then
    { s with screen := draw_screen_pixel s.screen xCoord yCoord 1 }
  else
    { s with screen := draw_screen_pixel s.screen xCoord yCoord color }

/-- The eight-pixel inner loop of cpu_draw_normal (cpu.py lines 673-688). -/
def cpu_draw_row (x yCoord colorByte : Nat) (s : CPUState) : CPUState :=
  (List.range 8).foldl (cpu_draw_bit x yCoord colorByte) s

/-- The row loop of cpu_draw_normal (cpu.py lines 666-688): for each of the
first `n` rows, read the sprite byte at I + row, wrap the y coordinate modulo
the screen height, and run the eight-pixel loop. -/
def cpu_draw_rows (x y n : Nat) (s : CPUState) : CPUState :=
  (List.range n).foldl
    (fun acc cpu_y_index =>
      cpu_draw_row x ((y + cpu_y_index) % acc.screen.screen_height)
        (acc.memory (acc.index + cpu_y_index)) acc)
    s

/-- Embeds cpu_draw_normal (cpu.py lines 658-690): one row per sprite byte at
memory I + row, y wrapped modulo the screen height, followed by exactly one
display flip. -/
def cpu_draw_normal (s : CPUState) (cpu_x_pos cpu_y_pos cpu_num_bytes : Nat) : CPUState :=
  let s1 := cpu_draw_rows cpu_x_pos cpu_y_pos cpu_num_bytes s
  { s1 with screen := update_screen s1.screen }

/-- Embeds one iteration of the inner pixel loop of cpu_draw_extended (cpu.py
lines 712-727): like cpu_draw_bit, but the x coordinate is offset by
`xByte * 8` and a collision stores 1 into VF directly. -/
def cpu_draw_ext_bit (x yCoord colorByte xByte : Nat) (s : CPUState) (xIdx : Nat) : CPUState :=
  let xCoord := (x + xIdx + xByte * 8) % s.screen.screen_width
  let color := colorBit colorByte xIdx
  let curr := get_screen_pixel s.screen xCoord yCoord
  if color = 1 ∧ curr = 1 then
    let s1 := { s with v := updateAt s.v 0xF 1 }
    { s1 with screen := draw_screen_pixel s1.screen xCoord yCoord 0 }
  else if color = 0 ∧ curr = 1 then
    { s with screen := draw_screen_pixel s.screen xCoord yCoord 1 }
  else
    { s with screen := draw_screen_pixel s.screen xCoord yCoord color }

/-- Embeds the per-byte body of cpu_draw_extended (cpu.py lines 705-727): read
sprite byte `I + yIdx*2 + xByte`, wrap the y coordinate, then run the
eight-pixel loop. -/
def cpu_draw_ext_byte (x y yIdx : Nat) (s : CPUState) (xByte : Nat) : CPUState :=
  let colorByte := s.memory (s.index + yIdx * 2 + xByte)
  let yCoord := (y + yIdx) % s.screen.screen_height
  (List.range 8).foldl (cpu_draw_ext_bit x yCoord colorByte xByte) s

/-- The row loop of cpu_draw_extended (cpu.py lines 703-727): each row is two
consecutive byte loops. -/
def cpu_draw_ext_rows (x y n : Nat) (s : CPUState) : CPUState :=
  (List.range n).foldl
    (fun acc cpu_y_index =>
      (List.range 2).foldl (cpu_draw_ext_byte x y cpu_y_index) acc)
    s

/-- Embeds cpu_draw_extended (cpu.py lines 692-729): 16 rows of two bytes
each, followed by exactly one display flip. -/
def cpu_draw_extended (s : CPUState) (cpu_x_pos cpu_y_pos cpu_num_bytes : Nat) : CPUState :=
  let s1 := cpu_draw_ext_rows cpu_x_pos cpu_y_pos cpu_num_bytes s
  { s1 with screen := update_screen s1.screen }

/-- Embeds cpu_draw_sprite (cpu.py lines 612-656): Dxyn reads the coordinates
from the registers named in the operand, clears VF, then dispatches to the
extended draw (16 rows) when the mode is extended and n = 0, otherwise to the
normal draw. -/
def cpu_draw_sprite (s : CPUState) : CPUState :=
  let cpu_x_source := (s.operand &&& ADDRESS_3) >>> 8
  let cpu_y_source := (s.operand &&& ADDRESS_4) >>> 4
  let cpu_x_pos := s.v cpu_x_source
  let cpu_y_pos := s.v cpu_y_source
  let cpu_num_bytes := s.operand &&& ADDRESS_6
  let s1 := { s with v := updateAt s.v 0xF 0 }
  if s1.mode = CpuMode.extended ∧ cpu_num_bytes = 0 then
    cpu_draw_extended s1 cpu_x_pos cpu_y_pos 16
  else
    cpu_draw_normal s1 cpu_x_pos cpu_y_pos cpu_num_bytes

/-- Embeds cpu_keyboard_routines (cpu.py lines 192-223): Es9E / EsA1, plain
sequential `if` tests on the low byte, with no sub-dispatch table and no
exception for other low bytes. -/
def cpu_keyboard_routines (ctx : Ctx) (s : CPUState) : CPUState :=
  let cpu_operation := s.operand &&& ADDRESS_2
  let cpu_source := (s.operand &&& ADDRESS_3) >>> 8
  let cpu_key_to_check := s.v cpu_source
  let s1 :=
    if cpu_operation = 0x9E then
      if ctx.pressed cpu_key_to_check then { s with pc := s.pc + 2 } else s
    else s
  if cpu_operation = 0xA1 then
    if ctx.pressed cpu_key_to_check = false then { s1 with pc := s1.pc + 2 } else s1
  else s1

/-- Embeds cpu_move_delay_timer_into_reg (cpu.py lines 731-742): Ft07. -/
def cpu_move_delay_timer_into_reg (s : CPUState) : CPUState :=
  let cpu_target := (s.operand &&& ADDRESS_3) >>> 8
  { s with v := updateAt s.v cpu_target s.delay }

/-- Embeds cpu_wait_for_keypress (cpu.py lines 744-765): Ft0A blocks on the
pygame event loop; the key index that eventually ends the wait is supplied by
the context. -/
def cpu_wait_for_keypress (ctx : Ctx) (s : CPUState) : CPUState :=
  let cpu_target := (s.operand &&& ADDRESS_3) >>> 8
  { s with v := updateAt s.v cpu_target ctx.waitKey }

/-- Embeds cpu_move_reg_into_delay_timer (cpu.py lines 767-778): Fs15. -/
def cpu_move_reg_into_delay_timer (s : CPUState) : CPUState :=
  let cpu_source := (s.operand &&& ADDRESS_3) >>> 8
  { s with delay := s.v cpu_source }

/-- Embeds cpu_move_reg_into_sound_timer (cpu.py lines 780-791): Fs18. -/
def cpu_move_reg_into_sound_timer (s : CPUState) : CPUState :=
  let cpu_source := (s.operand &&& ADDRESS_3) >>> 8
  { s with sound := s.v cpu_source }

/-- Embeds cpu_load_index_with_reg_sprite (cpu.py lines 793-806): Fs29. -/
def cpu_load_index_with_reg_sprite (s : CPUState) : CPUState :=
  let cpu_source := (s.operand &&& ADDRESS_3) >>> 8
  { s with index := s.v cpu_source * 5 }

/-- Embeds cpu_load_index_with_extended_reg_sprite (cpu.py lines 808-821):
Fs30. -/
def cpu_load_index_with_extended_reg_sprite (s : CPUState) : CPUState :=
  let cpu_source := (s.operand &&& ADDRESS_3) >>> 8
  { s with index := s.v cpu_source * 10 }

/-- Embeds cpu_add_reg_into_index (cpu.py lines 823-834): Fs1E, no masking. -/
def cpu_add_reg_into_index (s : CPUState) : CPUState :=
  let cpu_source := (s.operand &&& ADDRESS_3) >>> 8
  { s with index := s.index + s.v cpu_source }

/-- Embeds cpu_store_bcd_in_memory (cpu.py lines 836-863): Fs33 writes the
decimal digits of the register value.  The source formats with
`'{:03d}'.format(value)` and indexes the three characters; for the byte
values a register holds in the states the claims quantify over (0-255) these
are the hundreds, tens and ones digits. -/
def cpu_store_bcd_in_memory (s : CPUState) : CPUState :=
  let cpu_source := (s.operand &&& ADDRESS_3) >>> 8
  let cpu_bcd_value := s.v cpu_source
  let m1 := updateAt s.memory s.index (cpu_bcd_value / 100)
  let m2 := updateAt m1 (s.index + 1) (cpu_bcd_value / 10 % 10)
  let m3 := updateAt m2 (s.index + 2) (cpu_bcd_value % 10)
  { s with memory := m3 }

/-- Embeds cpu_store_regs_in_memory (cpu.py lines 865-882): Fs55 copies
V0..Vs into memory at I, I never written. -/
def cpu_store_regs_in_memory (s : CPUState) : CPUState :=
  let cpu_source := (s.operand &&& ADDRESS_3) >>> 8
  (List.range (cpu_source + 1)).foldl
    (fun acc cpu_counter =>
      { acc with memory := updateAt acc.memory (acc.index + cpu_counter) (acc.v cpu_counter) })
    s

/-- Embeds cpu_read_regs_from_memory (cpu.py lines 884-901): Fs65. -/
def cpu_read_regs_from_memory (s : CPUState) : CPUState :=
  let cpu_source := (s.operand &&& ADDRESS_3) >>> 8
  (List.range (cpu_source + 1)).foldl
    (fun acc cpu_counter =>
      { acc with v := updateAt acc.v cpu_counter (acc.memory (acc.index + cpu_counter)) })
    s

/-- Embeds cpu_store_regs_in_rpl (cpu.py lines 903-918): Fs75. -/
def cpu_store_regs_in_rpl (s : CPUState) : CPUState :=
  let cpu_source := (s.operand &&& ADDRESS_3) >>> 8
  (List.range (cpu_source + 1)).foldl
    (fun acc cpu_counter =>
      { acc with rpl := updateAt acc.rpl cpu_counter (acc.v cpu_counter) })
    s

/-- Embeds cpu_read_regs_from_rpl (cpu.py lines 920-935): Fs85. -/
def cpu_read_regs_from_rpl (s : CPUState) : CPUState :=
  let cpu_source := (s.operand &&& ADDRESS_3) >>> 8
  (List.range (cpu_source + 1)).foldl
    (fun acc cpu_counter =>
      { acc with v := updateAt acc.v cpu_counter (acc.rpl cpu_counter) })
    s

/-- Embeds cpu_clear_return (cpu.py lines 235-279): the 0x0 opcode group,
sequential `if` tests on the low byte (and its high nibble for 00Cn). -/
def cpu_clear_return (s : CPUState) : CPUState :=
  let cpu_operation := s.operand &&& ADDRESS_2
  let cpu_sub_operation := cpu_operation &&& ADDRESS_4
  let s1 :=
    if cpu_sub_operation = ADDRESS_5 then
      { s with screen := scroll_screen_down s.screen (s.operand &&& ADDRESS_6) }
    else s
  let s2 :=
    if cpu_operation = ADDRESS_7 then { s1 with screen := clear_screen s1.screen } else s1
  let s3 :=
    if cpu_operation = ADDRESS_8 then
      let sa := { s2 with sp := s2.sp - 1 }
      let sb := { sa with pc := sa.memory sa.sp <<< 8 }
      let sc := { sb with sp := sb.sp - 1 }
      { sc with pc := sc.pc + sc.memory sc.sp }
    else s2
  let s4 :=
    if cpu_operation = ADDRESS_9 then
      { s3 with screen := scroll_screen_right s3.screen }
    else s3
  let s5 :=
    if cpu_operation = ADDRESS_10 then
      { s4 with screen := scroll_screen_left s4.screen }
    else s4
  let s6 :=
    if cpu_operation = ADDRESS_12 then
      { s5 with screen := set_screen_normal s5.screen, mode := CpuMode.normal }
    else s5
  if cpu_operation = ADDRESS_2 then
    { s6 with screen := set_screen_extended s6.screen, mode := CpuMode.extended }
  else s6

/-- Embeds cpu_execute_logical_instruction (cpu.py lines 181-190): second
dispatch level of group 0x8, keyed on the low nibble.  The dictionary lookup
(keys 0x0-0x7 and 0xE) becomes an `if` chain; a missing key raises
UnknownOpCodeException carrying the operand before any handler has run, so
the error value pairs the operand with the unmodified state. -/
def cpu_execute_logical_instruction (s : CPUState) : Except (Nat × CPUState) CPUState :=
  let cpu_operation := s.operand &&& ADDRESS_6
  if cpu_operation = 0x0 then .ok (cpu_move_reg_into_reg s)
  else if cpu_operation = 0x1 then .ok (cpu_logical_or s)
  else if cpu_operation = 0x2 then .ok (cpu_logical_and s)
  else if cpu_operation = 0x3 then .ok (cpu_exclusive_or s)
  else if cpu_operation = 0x4 then .ok (cpu_add_reg_to_reg s)
  else if cpu_operation = 0x5 then .ok (cpu_subtract_reg_from_reg s)
  else if cpu_operation = 0x6 then .ok (cpu_right_shift_reg s)
  else if cpu_operation = 0x7 then .ok (cpu_subtract_reg_from_reg1 s)
  else if cpu_operation = 0xE then .ok (cpu_left_shift_reg s)
  else .error (s.operand, s)

/-- Embeds cpu_misc_routines (cpu.py lines 225-233): second dispatch level of
group 0xF, keyed on the low byte (12 keys); a missing key raises
UnknownOpCodeException carrying the operand with the state untouched. -/
def cpu_misc_routines (ctx : Ctx) (s : CPUState) : Except (Nat × CPUState) CPUState :=
  let cpu_operation := s.operand &&& ADDRESS_2
  if cpu_operation = 0x07 then .ok (cpu_move_delay_timer_into_reg s)
  else if cpu_operation = 0x0A then .ok (cpu_wait_for_keypress ctx s)
  else if cpu_operation = 0x15 then .ok (cpu_move_reg_into_delay_timer s)
  else if cpu_operation = 0x18 then .ok (cpu_move_reg_into_sound_timer s)
  else if cpu_operation = 0x1E then .ok (cpu_add_reg_into_index s)
  else if cpu_operation = 0x29 then .ok (cpu_load_index_with_reg_sprite s)
  else if cpu_operation = 0x30 then .ok (cpu_load_index_with_extended_reg_sprite s)
  else if cpu_operation = 0x33 then .ok (cpu_store_bcd_in_memory s)
  else if cpu_operation = 0x55 then .ok (cpu_store_regs_in_memory s)
  else if cpu_operation = 0x65 then .ok (cpu_read_regs_from_memory s)
  else if cpu_operation = 0x75 then .ok (cpu_store_regs_in_rpl s)
  else if cpu_operation = 0x85 then .ok (cpu_read_regs_from_rpl s)
  else .error (s.operand, s)

/-- Embeds the top-level cpu_operation_lookup dispatch (cpu.py lines 95-112,
177-178): a direct map from the top nibble to a handler.  The dictionary has
a handler for every value 0x0-0xF, and the scrutinee `(operand & 0xF000) >> 12`
can never exceed 0xF, so the final branch is exactly the 0xF handler. -/
def cpu_dispatch (ctx : Ctx) (s : CPUState) : Except (Nat × CPUState) CPUState :=
  let cpu_operation := (s.operand &&& ADDRESS_1) >>> 12
  if cpu_operation = 0x0 then .ok (cpu_clear_return s)
  else if cpu_operation = 0x1 then .ok (cpu_jump_to_address s)
  else if cpu_operation = 0x2 then .ok (cpu_jump_to_subroutine s)
  else if cpu_operation = 0x3 then .ok (cpu_skip_if_reg_equal_val s)
  else if cpu_operation = 0x4 then .ok (cpu_skip_if_reg_not_equal_val s)
  else if cpu_operation = 0x5 then .ok (cpu_skip_if_reg_equal_reg s)
  else if cpu_operation = 0x6 then .ok (cpu_move_value_to_reg s)
  else if cpu_operation = 0x7 then .ok (cpu_add_value_to_reg s)
  else if cpu_operation = 0x8 then cpu_execute_logical_instruction s
  else if cpu_operation = 0x9 then .ok (cpu_skip_if_reg_not_equal_reg s)
  else if cpu_operation = 0xA then .ok (cpu_load_index_reg_with_value s)
  else if cpu_operation = 0xB then .ok (cpu_jump_to_index_plus_value s)
  else if cpu_operation = 0xC then .ok (cpu_generate_random_number ctx s)
  else if cpu_operation = 0xD then .ok (cpu_draw_sprite s)
  else if cpu_operation = 0xE then .ok (cpu_keyboard_routines ctx s)
  else cpu_misc_routines ctx s

/-- Truthiness of the optional operand parameter of cpu_execute_instruction:
`if cpu_operator_param:` is false both for the default None and for a passed
value of 0. -/
def pyTruthy (param : Option Nat) : Bool :=
  match param with
  | none => false
  | some n => n != 0

/-- Embeds the operand-acquisition phase of cpu_execute_instruction (cpu.py
lines 160-176): a truthy parameter is stored as the operand directly; in
every other case two bytes are fetched big-endian at PC and PC advances
by 2. -/
def cpu_load_operand (s : CPUState) (cpu_operator_param : Option Nat) : CPUState :=
  if pyTruthy cpu_operator_param then
    { s with operand := cpu_operator_param.getD 0 }
  else
    { s with operand := (s.memory s.pc) <<< 8 + s.memory (s.pc + 1), pc := s.pc + 2 }

/-- Embeds cpu_execute_instruction (cpu.py lines 160-179): acquire the
operand, then dispatch on the top nibble.  The Python return value is the
operand just executed, which no handler modifies; it remains available as the
`operand` field of the resulting state. -/
def cpu_execute_instruction (ctx : Ctx) (s : CPUState)
    (cpu_operator_param : Option Nat) : Except (Nat × CPUState) CPUState :=
  cpu_dispatch ctx (cpu_load_operand s cpu_operator_param)

/-- Embeds cpu_reset (cpu.py lines 937-948): zero the v and rpl register
banks, the index register and both timers, and restore the starting PC and
SP.  Memory, the mode flag, the operand and the screen are not touched by the
source. -/
def cpu_reset (s : CPUState) : CPUState :=
  { s with
    v := (fun _ => 0)
    pc := PROGRAM_COUNTER_START
    sp := STACK_POINTER_START
    index := 0
    rpl := (fun _ => 0)
    delay := 0
    sound := 0 }

/-- Embeds CPU.__init__ (cpu.py lines 66-150): fresh timers and registers,
operand 0, normal mode, a zeroed 4096-byte memory, the given screen, then a
cpu_reset. -/
def cpu_init (screen : Screen) : CPUState :=
  cpu_reset
    { v := (fun _ => 0)
      index := 0
      sp := 0
      pc := 0
      rpl := (fun _ => 0)
      delay := 0
      sound := 0
      operand := 0
      mode := CpuMode.normal
      memory := (fun _ => 0)
      screen := screen }

/-- Embeds cpu_decrement_timers (cpu.py lines 964-972). -/
def cpu_decrement_timers (s : CPUState) : CPUState :=
  let s1 := if s.delay ≠ 0 then { s with delay := s.delay - 1 } else s
  if s1.sound ≠ 0 then { s1 with sound := s1.sound - 1 } else s1

/-- The default 64x32 screen with all pixels off and no flips yet. -/
def zeroScreen : Screen :=
  { screen_height := 32
    screen_width := 64
    pixels := (fun _ _ => 0)
    flips := 0 }

/-- A context with no key pressed, wait key 0 and random draw 0. -/
def ctx0 : Ctx :=
  { pressed := (fun _ => false), waitKey := 0, rand := 0 }

/-- The freshly constructed interpreter on the default screen. -/
def baseState : CPUState := cpu_init zeroScreen

/-- The machine state left behind by a dispatch result: the new state on
success, the state at raise time on an exception (Python does not roll the
object back when UnknownOpCodeException propagates). -/
def exceptState (r : Except (Nat × CPUState) CPUState) : CPUState :=
  match r with
  | .ok t => t
  | .error (_, t) => t

/-- Whether a dispatch result completed without an exception. -/
def exceptIsOk (r : Except (Nat × CPUState) CPUState) : Bool :=
  match r with
  | .ok _ => true
  | .error _ => false

/-- Starting state for the shift and subtract failing inputs: V0 = 0x80,
V1 = 0x05, everything else as freshly constructed. -/
def shlState : CPUState :=
  { baseState with v := updateAt (updateAt baseState.v 0 0x80) 1 0x05 }

/-- Starting state for the equal-registers subtract failing input: V0 = V1 =
0x05. -/
def subEqState : CPUState :=
  { baseState with v := updateAt (updateAt baseState.v 0 0x05) 1 0x05 }

/-- Starting state for the draw counterexample: operand D011 (draw the 1-byte
sprite at (V0, V1) = (0, 0)), sprite byte 0x80 at memory address 0, blank
64x32 screen, normal mode. -/
def drawState : CPUState :=
  { baseState with
    operand := 0xD011
    memory := updateAt baseState.memory 0 0x80 }

/-- Starting state for the unknown-instruction examples (all registers zero,
freshly constructed machine). -/
def unknownOpState (op : Nat) : CPUState :=
  { baseState with operand := op }

/-- Starting state for the reset counterexample: extended mode and a nonzero
memory byte. -/
def resetTestState : CPUState :=
  { baseState with
    mode := CpuMode.extended
    memory := updateAt baseState.memory 0 5 }

/-- Frame relation for the sprite-drawing code: everything except the flag
register VF and the pixel contents of the screen agrees between `t` and `s`.
Each single pixel write of the draw loops preserves this relation. -/
def NonPixelFrame (t s : CPUState) : Prop :=
  t.index = s.index ∧ t.sp = s.sp ∧ t.pc = s.pc ∧ t.rpl = s.rpl ∧
  t.delay = s.delay ∧ t.sound = s.sound ∧ t.operand = s.operand ∧
  t.mode = s.mode ∧ t.memory = s.memory ∧
  t.screen.screen_width = s.screen.screen_width ∧
  t.screen.screen_height = s.screen.screen_height ∧
  t.screen.flips = s.screen.flips ∧
  (∀ j, j ≠ 0xF → t.v j = s.v j)

/-! ### Generic helper lemmas -/

theorem updateAt_same (f : Nat → Nat) (i v : Nat) : updateAt f i v i = v := by
  simp [updateAt]

theorem updateAt_other (f : Nat → Nat) (i v j : Nat) (h : j ≠ i) :
    updateAt f i v j = f j := by
  simp [updateAt, h]

theorem nat_and_255 (n : Nat) : n &&& 255 = n % 256 := by
  have h := Nat.and_pow_two_sub_one_eq_mod n 8
  norm_num at h
  exact h

theorem nat_and_ff00 (n : Nat) : n &&& 65280 = n / 256 % 256 * 256 := by
  apply Nat.eq_of_testBit_eq
  intro i
  have h1 : (65280 : Nat) = 2 ^ 8 * (2 ^ 8 - 1) := by norm_num
  have h2 : n / 256 % 256 * 256 = 2 ^ 8 * (n >>> 8 % 2 ^ 8) := by
    rw [Nat.shiftRight_eq_div_pow]
    norm_num
    omega
  rw [h1, h2]
  simp only [Nat.testBit_and, Nat.testBit_mul_pow_two, Nat.testBit_mod_two_pow,
    Nat.testBit_two_pow_sub_one, Nat.testBit_shiftRight]
  by_cases hi : 8 ≤ i
  · have he : 8 + (i - 8) = i := by omega
    simp [hi, he, Bool.and_comm, Bool.and_left_comm]
  · simp [hi]

theorem pc_bytes_roundtrip (n : Nat) (h : n < 65536) :
    ((n &&& 65280) >>> 8) <<< 8 + (n &&& 255) = n := by
  rw [nat_and_ff00, nat_and_255, Nat.shiftRight_eq_div_pow, Nat.shiftLeft_eq]
  norm_num
  omega

theorem add_mod_left_inj {w i j : Nat} (x : Nat) (hi : i < w) (hj : j < w)
    (h : (x + i) % w = (x + j) % w) : i = j := by
  have h2 : x + i ≡ x + j [MOD w] := h
  have h3 := Nat.ModEq.add_left_cancel' x h2
  have h4 : i % w = j % w := h3
  rwa [Nat.mod_eq_of_lt hi, Nat.mod_eq_of_lt hj] at h4

theorem foldl_preserves_index {α : Type} (f : CPUState → α → CPUState)
    (hf : ∀ acc c, (f acc c).index = acc.index) :
    ∀ (l : List α) (s : CPUState), (l.foldl f s).index = s.index := by
  intro l
  induction l with
  | nil => intro s; rfl
  | cons a t ih => intro s; rw [List.foldl_cons, ih, hf]

theorem exists_lt_succ_iff (k : Nat) (P : Nat → Prop) :
    (∃ i, i < k + 1 ∧ P i) ↔ (∃ i, i < k ∧ P i) ∨ P k := by
  constructor
  · rintro ⟨i, hi, hp⟩
    rcases Nat.lt_succ_iff_lt_or_eq.1 hi with h | h
    · exact Or.inl ⟨i, h, hp⟩
    · subst h; exact Or.inr hp
  · rintro (⟨i, hi, hp⟩ | hp)
    · exact ⟨i, Nat.lt_succ_of_lt hi, hp⟩
    · exact ⟨k, Nat.lt_succ_self k, hp⟩

theorem ind_or_merge (P Q : Prop) [Decidable P] [Decidable Q] (n : Nat) :
    (n ||| (if P then 1 else 0)) ||| (if Q then 1 else 0) =
      n ||| (if P ∨ Q then 1 else 0) := by
  by_cases hp : P <;> by_cases hq : Q <;>
    simp [hp, hq, Nat.lor_assoc, show (1 : Nat) ||| 1 = 1 from rfl]

/-! ### Claim theorems -/

/-- C1: the spec claims every instruction that completes without error keeps
all registers in [0,255], with 8st5 and 8stE wrapping modulo 256.  The code
violates this: from a state whose registers are all bytes (V0 = 0x80,
V1 = 0x05, the rest 0), the left-shift instruction 800E completes without an
exception and leaves V0 = 256, outside [0,255] — `v << 1` is stored with no
modulo-256 reduction (cpu.py line 550), contradicting both the spec invariant
and the 8-bit register model in the CPU class docstring. -/
theorem C1_shl_escapes_byte_range :
    (∀ j, shlState.v j ≤ 255) ∧
    exceptIsOk (cpu_execute_instruction ctx0 shlState (some 0x800E)) = true ∧
    (exceptState (cpu_execute_instruction ctx0 shlState (some 0x800E))).v 0 = 256 := by
  refine ⟨?_, by decide, by decide⟩
  intro j
  simp only [shlState, baseState, cpu_init, cpu_reset, updateAt]
  split_ifs <;> omega

/-- C2: the spec claims SUB sets X := X − Y with VF = 1 whenever X ≥ Y.  The
code compares with strict `>` (cpu.py line 488): at the failing input
V0 = V1 = 0x05, SUB V0,V1 (operand 8015) completes without exception but
stores 256 + 5 − 5 = 256 into V0 and 0 into VF, where the claim requires
V0 = 0 and VF = 1 (no borrow is generated when X = Y). -/
theorem C2_sub_equal_registers_diverges :
    subEqState.v 0 = 0x05 ∧ subEqState.v 1 = 0x05 ∧
    exceptIsOk (cpu_execute_instruction ctx0 subEqState (some 0x8015)) = true ∧
    (exceptState (cpu_execute_instruction ctx0 subEqState (some 0x8015))).v 0 = 256 ∧
    (exceptState (cpu_execute_instruction ctx0 subEqState (some 0x8015))).v 0xF = 0 := by
  decide

/-- C3: the spec claims 8stE sets X := (X << 1) mod 256 and VF := bit 7 of
the pre-shift value.  The code computes the saved bit as `(X & 0x80) >> 8`
(shift by eight instead of seven, cpu.py line 549), so VF is always 0, and
stores `X << 1` unreduced: at the failing input V0 = 0x80, operand 800E
leaves V0 = 256 and VF = 0, where the claim requires V0 = 0 and VF = 1. -/
theorem C3_shl_flag_and_wrap_diverge :
    shlState.v 0 = 0x80 ∧
    (exceptState (cpu_execute_instruction ctx0 shlState (some 0x800E))).v 0 = 256 ∧
    (exceptState (cpu_execute_instruction ctx0 shlState (some 0x800E))).v 0xF = 0 := by
  decide

/-- C4 counterexample: the claim states that an operand whose low byte has no
handler in group 0xE raises UnknownInstruction.  Dispatching operand 0xE0A2
(low byte 0xA2, handled by neither 9E nor A1) completes without any exception
and returns the state unchanged: cpu_keyboard_routines tests the low byte
with plain `if` statements and has no dispatch table to miss. -/
theorem C4_group_E_does_not_raise :
    cpu_execute_instruction ctx0 baseState (some 0xE0A2) = .ok (unknownOpState 0xE0A2) :=
  rfl

/-- C4 amended: a missing key in the two real sub-dispatch tables — group 0x8
keyed on the low nibble (handlers 0x0–0x7 and 0xE) and group 0xF keyed on the
low byte (the twelve listed handlers) — raises UnknownInstruction carrying
the full operand, with the machine state at raise time identical to the state
before dispatch (no register is mutated); group 0xE has no sub-dispatch
table, and an unhandled low byte there is a silent no-op; the top-level table
has a handler for every top nibble, so no top-level miss exists. -/
theorem C4_unknown_key_dispatch (ctx : Ctx) (s : CPUState) :
    ((s.operand &&& ADDRESS_1) >>> 12 = 0x8 →
      (s.operand &&& ADDRESS_6) ∉ ([0x0, 0x1, 0x2, 0x3, 0x4, 0x5, 0x6, 0x7, 0xE] : List Nat) →
      cpu_dispatch ctx s = .error (s.operand, s)) ∧
    ((s.operand &&& ADDRESS_1) >>> 12 = 0xF →
      (s.operand &&& ADDRESS_2) ∉
        ([0x07, 0x0A, 0x15, 0x18, 0x1E, 0x29, 0x30, 0x33, 0x55, 0x65, 0x75, 0x85] : List Nat) →
      cpu_dispatch ctx s = .error (s.operand, s)) ∧
    ((s.operand &&& ADDRESS_1) >>> 12 = 0xE →
      s.operand &&& ADDRESS_2 ≠ 0x9E → s.operand &&& ADDRESS_2 ≠ 0xA1 →
      cpu_dispatch ctx s = .ok s) := by
  refine ⟨?_, ?_, ?_⟩
  · intro htop hmem
    simp only [List.mem_cons, List.not_mem_nil, or_false, not_or] at hmem
    obtain ⟨h0, h1, h2, h3, h4, h5, h6, h7, hE⟩ := hmem
    simp [cpu_dispatch, cpu_execute_logical_instruction, htop,
      h0, h1, h2, h3, h4, h5, h6, h7, hE]
  · intro htop hmem
    simp only [List.mem_cons, List.not_mem_nil, or_false, not_or] at hmem
    obtain ⟨h07, h0A, h15, h18, h1E, h29, h30, h33, h55, h65, h75, h85⟩ := hmem
    simp [cpu_dispatch, cpu_misc_routines, htop,
      h07, h0A, h15, h18, h1E, h29, h30, h33, h55, h65, h75, h85]
  · intro htop h9E hA1
    simp [cpu_dispatch, cpu_keyboard_routines, htop, h9E, hA1]

/-- C4 witness: dispatching operand 0x8ABF (undefined low nibble F in group
0x8) raises UnknownInstruction(0x8ABF) with the state unmutated. -/
theorem C4_unknown_key_dispatch_witness :
    cpu_dispatch ctx0 (unknownOpState 0x8ABF) = .error (0x8ABF, unknownOpState 0x8ABF) :=
  (C4_unknown_key_dispatch ctx0 (unknownOpState 0x8ABF)).1 (by decide) (by decide)

/-- C8 counterexample: the claim states the reset operation zeroes memory and
returns the mode flag to Normal.  From a state in extended mode with memory
byte 0 equal to 5, cpu_reset leaves the mode extended and the memory byte
untouched: the source resets only v, pc, sp, index, rpl and the two timers
(cpu.py lines 937-948). -/
theorem C8_reset_keeps_memory_and_mode :
    (cpu_reset resetTestState).mode = CpuMode.extended ∧
    (cpu_reset resetTestState).memory 0 = 5 := by
  decide

/-- C8 amended: the reset operation zeroes the V registers, the RPL
registers, the index register and both timers, and sets PC to 0x200 and SP to
0x52; it leaves memory and the mode flag unchanged.  Zeroed memory and Normal
mode hold after construction only because __init__ allocates a fresh zeroed
bytearray and sets the mode before calling reset. -/
theorem C8_reset_zeroes_cpu_owned_state (s : CPUState) :
    (cpu_reset s).v = (fun _ => 0) ∧
    (cpu_reset s).rpl = (fun _ => 0) ∧
    (cpu_reset s).index = 0 ∧
    (cpu_reset s).delay = 0 ∧
    (cpu_reset s).sound = 0 ∧
    (cpu_reset s).pc = PROGRAM_COUNTER_START ∧
    (cpu_reset s).sp = STACK_POINTER_START ∧
    (cpu_reset s).memory = s.memory ∧
    (cpu_reset s).mode = s.mode ∧
    (∀ scr : Screen, (cpu_init scr).memory = (fun _ => 0) ∧
      (cpu_init scr).mode = CpuMode.normal) :=
  ⟨rfl, rfl, rfl, rfl, rfl, rfl, rfl, rfl, rfl, fun _ => ⟨rfl, rfl⟩⟩

/-- C9: passing the operand 0x0000 directly to execute-one-instruction does
not take the bypass-fetch path: the guard `if cpu_operator_param:` is falsy
for 0 exactly as for the default None, so the call fetches two bytes at PC,
advances PC by 2, and behaves identically to a fetch call — the
direct-operand path can never execute the all-zero operand. -/
theorem C9_zero_operand_takes_fetch_path (ctx : Ctx) (s : CPUState) :
    cpu_load_operand s (some 0) = cpu_load_operand s none ∧
    (cpu_load_operand s (some 0)).pc = s.pc + 2 ∧
    (cpu_load_operand s (some 0)).operand = (s.memory s.pc) <<< 8 + s.memory (s.pc + 1) ∧
    cpu_execute_instruction ctx s (some 0) = cpu_execute_instruction ctx s none :=
  ⟨rfl, rfl, rfl, rfl⟩

/-- C10: the memory-transfer instructions Fx55, Fx65 and Fx33 read the index
register but never write it back or increment it, for every register count
and every index value for which the touched addresses are in bounds. -/
theorem C10_memory_transfers_preserve_index (s : CPUState)
    (h1 : s.index + ((s.operand &&& ADDRESS_3) >>> 8) < MAX_MEMORY)
    (h2 : s.index + 2 < MAX_MEMORY) :
    (cpu_store_regs_in_memory s).index = s.index ∧
    (cpu_read_regs_from_memory s).index = s.index ∧
    (cpu_store_bcd_in_memory s).index = s.index := by
  refine ⟨?_, ?_, rfl⟩
  · unfold cpu_store_regs_in_memory
    dsimp only
    refine foldl_preserves_index _ ?_ _ s
    intro acc c
    rfl
  · unfold cpu_read_regs_from_memory
    dsimp only
    refine foldl_preserves_index _ ?_ _ s
    intro acc c
    rfl

/-- C10 witness: the freshly constructed machine satisfies the bounds and the
three transfer instructions leave I untouched there. -/
theorem C10_memory_transfers_preserve_index_witness :
    (cpu_store_regs_in_memory baseState).index = baseState.index ∧
    (cpu_read_regs_from_memory baseState).index = baseState.index ∧
    (cpu_store_bcd_in_memory baseState).index = baseState.index :=
  C10_memory_transfers_preserve_index baseState (by decide) (by decide)

/-- C5: from any state whose stack slots SP and SP+1 address the 4096-byte
memory (pc below 2^16 per the spec's 16-bit PC data model), executing a call
instruction 2nnn — which stores the low byte of PC at SP and the high byte at
SP+1, advances SP by 2 and jumps to the 12-bit address — followed by the
return instruction 00EE restores PC to the value saved by the call and SP to
its pre-call value. -/
theorem C5_call_return_roundtrip (ctx : Ctx) (s : CPUState) (op : Nat)
    (htop : (op &&& ADDRESS_1) >>> 12 = 0x2)
    (hsp : s.sp + 1 < MAX_MEMORY) (hpc : s.pc < 65536) :
    (exceptState (cpu_execute_instruction ctx s (some op))).pc = (op &&& ADDRESS_13) ∧
    (exceptState (cpu_execute_instruction ctx s (some op))).sp = s.sp + 2 ∧
    (exceptState (cpu_execute_instruction ctx
      (exceptState (cpu_execute_instruction ctx s (some op))) (some 0x00EE))).pc = s.pc ∧
    (exceptState (cpu_execute_instruction ctx
      (exceptState (cpu_execute_instruction ctx s (some op))) (some 0x00EE))).sp = s.sp := by
  have hop0 : op ≠ 0 := by
    intro h
    subst h
    simp [ADDRESS_1] at htop
  have e1 : exceptState (cpu_execute_instruction ctx s (some op)) =
      cpu_jump_to_subroutine { s with operand := op } := by
    simp [cpu_execute_instruction, cpu_load_operand, pyTruthy, bne_iff_ne, hop0,
      cpu_dispatch, htop, exceptState]
  rw [e1]
  have hcall : cpu_jump_to_subroutine { s with operand := op } =
      { s with
        operand := op
        memory := updateAt (updateAt s.memory s.sp (s.pc &&& ADDRESS_2))
          (s.sp + 1) ((s.pc &&& ADDRESS_14) >>> 8)
        sp := s.sp + 2
        pc := op &&& ADDRESS_13 } := rfl
  rw [hcall]
  have e2 : ∀ t : CPUState, exceptState (cpu_execute_instruction ctx t (some 0x00EE)) =
      cpu_clear_return { t with operand := 0x00EE } := by
    intro t
    simp [cpu_execute_instruction, cpu_load_operand, pyTruthy, cpu_dispatch,
      ADDRESS_1, exceptState, show (238 : Nat) &&& 61440 = 0 from by decide]
  have hee : ∀ t : CPUState, t.operand = 0x00EE →
      cpu_clear_return t =
        { t with sp := t.sp - 1 - 1
                 pc := (t.memory (t.sp - 1)) <<< 8 + t.memory (t.sp - 1 - 1) } := by
    intro t h
    simp [cpu_clear_return, h, ADDRESS_2, ADDRESS_4, ADDRESS_5, ADDRESS_7, ADDRESS_8,
      ADDRESS_9, ADDRESS_10, ADDRESS_12,
      show (238 : Nat) &&& 255 = 238 from by decide,
      show (238 : Nat) &&& 240 = 224 from by decide]
  rw [e2, hee _ rfl]
  have h21 : s.sp + 2 - 1 = s.sp + 1 := by omega
  have h22 : s.sp + 2 - 1 - 1 = s.sp := by omega
  refine ⟨rfl, rfl, ?_, h22⟩
  show (updateAt (updateAt s.memory s.sp (s.pc &&& ADDRESS_2))
      (s.sp + 1) ((s.pc &&& ADDRESS_14) >>> 8)) (s.sp + 2 - 1) <<< 8 +
    (updateAt (updateAt s.memory s.sp (s.pc &&& ADDRESS_2))
      (s.sp + 1) ((s.pc &&& ADDRESS_14) >>> 8)) (s.sp + 2 - 1 - 1) = s.pc
  have h23 : s.sp + 1 - 1 = s.sp := by omega
  rw [h21, h23, updateAt_same, updateAt_other _ _ _ _ (by omega), updateAt_same]
  simp only [ADDRESS_14, ADDRESS_2]
  exact pc_bytes_roundtrip s.pc hpc


/-- C5 witness: from the freshly constructed machine (SP = 0x52, PC = 0x200),
the call 2ABC followed by 00EE restores PC and SP. -/
theorem C5_call_return_roundtrip_witness :
    (exceptState (cpu_execute_instruction ctx0 baseState (some 0x2ABC))).pc =
      (0x2ABC &&& ADDRESS_13) ∧
    (exceptState (cpu_execute_instruction ctx0 baseState (some 0x2ABC))).sp =
      baseState.sp + 2 ∧
    (exceptState (cpu_execute_instruction ctx0
      (exceptState (cpu_execute_instruction ctx0 baseState (some 0x2ABC)))
      (some 0x00EE))).pc = baseState.pc ∧
    (exceptState (cpu_execute_instruction ctx0
      (exceptState (cpu_execute_instruction ctx0 baseState (some 0x2ABC)))
      (some 0x00EE))).sp = baseState.sp :=
  C5_call_return_roundtrip ctx0 baseState 0x2ABC (by decide) (by decide) (by decide)

/-! ### Sprite blitter characterization -/

theorem nonPixelFrame_refl (s : CPUState) : NonPixelFrame s s :=
  ⟨rfl, rfl, rfl, rfl, rfl, rfl, rfl, rfl, rfl, rfl, rfl, rfl, fun _ _ => rfl⟩

theorem nonPixelFrame_trans {u t s : CPUState}
    (h1 : NonPixelFrame u t) (h2 : NonPixelFrame t s) : NonPixelFrame u s := by
  obtain ⟨a1, b1, c1, d1, e1, f1, g1, h1', i1, j1, k1, l1, m1⟩ := h1
  obtain ⟨a2, b2, c2, d2, e2, f2, g2, h2', i2, j2, k2, l2, m2⟩ := h2
  exact ⟨a1.trans a2, b1.trans b2, c1.trans c2, d1.trans d2, e1.trans e2,
    f1.trans f2, g1.trans g2, h1'.trans h2', i1.trans i2, j1.trans j2,
    k1.trans k2, l1.trans l2, fun j hj => (m1 j hj).trans (m2 j hj)⟩

theorem get_screen_pixel_congr {scr1 scr2 : Screen} {a b : Nat}
    (h : scr1.pixels a b = scr2.pixels a b) :
    get_screen_pixel scr1 a b = get_screen_pixel scr2 a b := by
  unfold get_screen_pixel
  rw [h]

theorem get_draw_same (scr : Screen) (a b c : Nat) :
    get_screen_pixel (draw_screen_pixel scr a b c) a b = if c = 0 then 0 else 1 := by
  simp [get_screen_pixel, draw_screen_pixel]

theorem colorBit_le_one (b i : Nat) : colorBit b i ≤ 1 := by
  unfold colorBit
  omega

theorem get_screen_pixel_le_one (scr : Screen) (a b : Nat) :
    get_screen_pixel scr a b ≤ 1 := by
  unfold get_screen_pixel
  split <;> omega

theorem cpu_draw_bit_frame (x yc b : Nat) (s : CPUState) (i : Nat) :
    NonPixelFrame (cpu_draw_bit x yc b s i) s := by
  simp only [cpu_draw_bit, NonPixelFrame, draw_screen_pixel]
  split_ifs <;>
    refine ⟨rfl, rfl, rfl, rfl, rfl, rfl, rfl, rfl, rfl, rfl, rfl, rfl, ?_⟩ <;>
    intro j hj <;> simp [updateAt, hj]

theorem cpu_draw_bit_pixels_other (x yc b : Nat) (s : CPUState) (i a bb : Nat)
    (h : ¬(a = (x + i) % s.screen.screen_width ∧ bb = yc)) :
    (cpu_draw_bit x yc b s i).screen.pixels a bb = s.screen.pixels a bb := by
  simp only [cpu_draw_bit, draw_screen_pixel]
  split_ifs <;> simp [h]

theorem cpu_draw_bit_get_hit (x yc b : Nat) (s : CPUState) (i : Nat) :
    get_screen_pixel (cpu_draw_bit x yc b s i).screen
        ((x + i) % s.screen.screen_width) yc
      = colorBit b i ^^^
        get_screen_pixel s.screen ((x + i) % s.screen.screen_width) yc := by
  have hc : colorBit b i = 0 ∨ colorBit b i = 1 := by
    have := colorBit_le_one b i
    omega
  have hcur : get_screen_pixel s.screen ((x + i) % s.screen.screen_width) yc = 0 ∨
      get_screen_pixel s.screen ((x + i) % s.screen.screen_width) yc = 1 := by
    have := get_screen_pixel_le_one s.screen ((x + i) % s.screen.screen_width) yc
    omega
  rcases hc with hc | hc <;> rcases hcur with hcur | hcur <;>
    simp [cpu_draw_bit, hc, hcur, get_draw_same]

theorem cpu_draw_bit_vF (x yc b : Nat) (s : CPUState) (i : Nat) :
    (cpu_draw_bit x yc b s i).v 0xF =
      s.v 0xF ||| (if colorBit b i = 1 ∧
        get_screen_pixel s.screen ((x + i) % s.screen.screen_width) yc = 1
        then 1 else 0) := by
  by_cases h : colorBit b i = 1 ∧
      get_screen_pixel s.screen ((x + i) % s.screen.screen_width) yc = 1
  · simp [cpu_draw_bit, h, updateAt]
  · simp only [cpu_draw_bit, if_neg h]
    split_ifs <;> simp

/-- Characterization of the first `k` steps of the normal-mode row loop: the
frame is preserved, pixels off the row (or off the first k wrapped columns)
are untouched, each hit pixel is the XOR of its sprite bit with its original
value, and VF accumulates the collision indicator. -/
theorem cpu_draw_row_go (x yc b : Nat) :
    ∀ (k : Nat), k ≤ 8 → ∀ (s : CPUState), 8 ≤ s.screen.screen_width →
      NonPixelFrame ((List.range k).foldl (cpu_draw_bit x yc b) s) s ∧
      (∀ a bb, (bb ≠ yc ∨ ∀ i, i < k → a ≠ (x + i) % s.screen.screen_width) →
        ((List.range k).foldl (cpu_draw_bit x yc b) s).screen.pixels a bb
          = s.screen.pixels a bb) ∧
      (∀ i, i < k →
        get_screen_pixel ((List.range k).foldl (cpu_draw_bit x yc b) s).screen
            ((x + i) % s.screen.screen_width) yc
          = colorBit b i ^^^
            get_screen_pixel s.screen ((x + i) % s.screen.screen_width) yc) ∧
      ((List.range k).foldl (cpu_draw_bit x yc b) s).v 0xF =
        s.v 0xF ||| (if ∃ i, i < k ∧ colorBit b i = 1 ∧
            get_screen_pixel s.screen ((x + i) % s.screen.screen_width) yc = 1
          then 1 else 0) := by
  intro k
  induction k with
  | zero =>
    intro _ s _
    refine ⟨nonPixelFrame_refl s, fun a bb _ => rfl,
      fun i hi => absurd hi (Nat.not_lt_zero i), ?_⟩
    simp
  | succ k ih =>
    intro hk s hw
    obtain ⟨ihF, ihP, ihG, ihV⟩ := ih (by omega) s hw
    obtain ⟨hidx, hsp', hpc', hrpl, hdel, hsnd, hopd, hmod, hmem, hwid, hhei, hfli, hv⟩ := ihF
    set t := (List.range k).foldl (cpu_draw_bit x yc b) s with ht
    have hfold : (List.range (k + 1)).foldl (cpu_draw_bit x yc b) s
        = cpu_draw_bit x yc b t k := by
      rw [List.range_succ, List.foldl_append, List.foldl_cons, List.foldl_nil]
    have hinj : ∀ i j : Nat, i < 8 → j < 8 →
        (x + i) % s.screen.screen_width = (x + j) % s.screen.screen_width → i = j := by
      intro i j hi hj h
      exact add_mod_left_inj x (lt_of_lt_of_le hi hw) (lt_of_lt_of_le hj hw) h
    have hpk : t.screen.pixels ((x + k) % s.screen.screen_width) yc
        = s.screen.pixels ((x + k) % s.screen.screen_width) yc := by
      apply ihP
      right
      intro i hik he
      have := hinj k i (by omega) (by omega) he
      omega
    have hgk : get_screen_pixel t.screen ((x + k) % s.screen.screen_width) yc
        = get_screen_pixel s.screen ((x + k) % s.screen.screen_width) yc :=
      get_screen_pixel_congr hpk
    rw [hfold]
    refine ⟨?_, ?_, ?_, ?_⟩
    · exact nonPixelFrame_trans (cpu_draw_bit_frame x yc b t k)
        ⟨hidx, hsp', hpc', hrpl, hdel, hsnd, hopd, hmod, hmem, hwid, hhei, hfli, hv⟩
    · intro a bb hcond
      have hstep : (cpu_draw_bit x yc b t k).screen.pixels a bb
          = t.screen.pixels a bb := by
        apply cpu_draw_bit_pixels_other
        rw [hwid]
        rcases hcond with h | h
        · rintro ⟨_, hbb⟩
          exact h hbb
        · rintro ⟨ha, _⟩
          exact h k (Nat.lt_succ_self k) ha
      rw [hstep]
      apply ihP
      rcases hcond with h | h
      · exact Or.inl h
      · exact Or.inr (fun i hi => h i (Nat.lt_succ_of_lt hi))
    · intro i hi
      rcases Nat.lt_succ_iff_lt_or_eq.1 hi with hik | hik
      · have hne : (x + i) % s.screen.screen_width ≠ (x + k) % s.screen.screen_width := by
          intro he
          have := hinj i k (by omega) (by omega) he
          omega
        have hstep : (cpu_draw_bit x yc b t k).screen.pixels
            ((x + i) % s.screen.screen_width) yc
            = t.screen.pixels ((x + i) % s.screen.screen_width) yc := by
          apply cpu_draw_bit_pixels_other
          rw [hwid]
          rintro ⟨ha, _⟩
          exact hne ha
        rw [get_screen_pixel_congr hstep]
        exact ihG i hik
      · subst hik
        have hbit := cpu_draw_bit_get_hit x yc b t i
        rw [hwid] at hbit
        rw [hbit, hgk]
    · have hstep := cpu_draw_bit_vF x yc b t k
      rw [hwid] at hstep
      rw [hstep]
      simp only [hgk]
      rw [ihV, ind_or_merge]
      refine congrArg (fun z => s.v 0xF ||| z) ?_
      refine if_congr ?_ rfl rfl
      exact (exists_lt_succ_iff k _).symm

/-- The eight-pixel row loop characterized in one shot (k = 8). -/
theorem cpu_draw_row_spec (x yc b : Nat) (s : CPUState)
    (hw : 8 ≤ s.screen.screen_width) :
    NonPixelFrame (cpu_draw_row x yc b s) s ∧
    (∀ a bb, (bb ≠ yc ∨ ∀ i, i < 8 → a ≠ (x + i) % s.screen.screen_width) →
      (cpu_draw_row x yc b s).screen.pixels a bb = s.screen.pixels a bb) ∧
    (∀ i, i < 8 →
      get_screen_pixel (cpu_draw_row x yc b s).screen
          ((x + i) % s.screen.screen_width) yc
        = colorBit b i ^^^
          get_screen_pixel s.screen ((x + i) % s.screen.screen_width) yc) ∧
    (cpu_draw_row x yc b s).v 0xF =
      s.v 0xF ||| (if ∃ i : Nat, i < 8 ∧ colorBit b i = 1 ∧
          get_screen_pixel s.screen ((x + i) % s.screen.screen_width) yc = 1
        then 1 else 0) :=
  cpu_draw_row_go x yc b 8 le_rfl s hw

/-- Characterization of the row loop of the normal-mode draw: frame
preservation, untouched pixels, per-pixel XOR against the pre-draw screen,
and the accumulated collision flag. -/
theorem cpu_draw_rows_spec (x y : Nat) :
    ∀ (n : Nat) (s : CPUState), 8 ≤ s.screen.screen_width →
      n ≤ s.screen.screen_height →
      NonPixelFrame (cpu_draw_rows x y n s) s ∧
      (∀ a bb, (∀ r, r < n → bb ≠ (y + r) % s.screen.screen_height ∨
          ∀ i, i < 8 → a ≠ (x + i) % s.screen.screen_width) →
        (cpu_draw_rows x y n s).screen.pixels a bb = s.screen.pixels a bb) ∧
      (∀ r, r < n → ∀ i, i < 8 →
        get_screen_pixel (cpu_draw_rows x y n s).screen
            ((x + i) % s.screen.screen_width) ((y + r) % s.screen.screen_height)
          = colorBit (s.memory (s.index + r)) i ^^^
            get_screen_pixel s.screen ((x + i) % s.screen.screen_width)
              ((y + r) % s.screen.screen_height)) ∧
      (cpu_draw_rows x y n s).v 0xF =
        s.v 0xF ||| (if ∃ r : Nat, r < n ∧ ∃ i : Nat, i < 8 ∧
            colorBit (s.memory (s.index + r)) i = 1 ∧
            get_screen_pixel s.screen ((x + i) % s.screen.screen_width)
              ((y + r) % s.screen.screen_height) = 1
          then 1 else 0) := by
  intro n
  induction n with
  | zero =>
    intro s _ _
    refine ⟨nonPixelFrame_refl s, fun a bb _ => rfl,
      fun r hr => absurd hr (Nat.not_lt_zero r), ?_⟩
    simp [cpu_draw_rows]
  | succ n ih =>
    intro s hw hh
    obtain ⟨ihF, ihP, ihG, ihV⟩ := ih s hw (by omega)
    obtain ⟨hidx, hsp', hpc', hrpl, hdel, hsnd, hopd, hmod, hmem, hwid, hhei, hfli, hv⟩ := ihF
    set t := cpu_draw_rows x y n s with ht
    have hfold : cpu_draw_rows x y (n + 1) s
        = cpu_draw_row x ((y + n) % t.screen.screen_height)
            (t.memory (t.index + n)) t := by
      unfold cpu_draw_rows
    -- the loop body matches because the fold over `range (n+1)` peels its
    -- last element
      rw [List.range_succ, List.foldl_append, List.foldl_cons, List.foldl_nil]
      rfl
    have hrowinj : ∀ r r' : Nat, r < s.screen.screen_height →
        r' < s.screen.screen_height →
        (y + r) % s.screen.screen_height = (y + r') % s.screen.screen_height →
        r = r' := by
      intro r r' hr hr' h
      exact add_mod_left_inj y hr hr' h
    have hstepEq : cpu_draw_rows x y (n + 1) s
        = cpu_draw_row x ((y + n) % s.screen.screen_height)
            (s.memory (s.index + n)) t := by
      rw [hfold, hhei, hmem, hidx]
    obtain ⟨rowF, rowP, rowG, rowV⟩ :=
      cpu_draw_row_spec x ((y + n) % s.screen.screen_height)
        (s.memory (s.index + n)) t (by rw [hwid]; exact hw)
    -- pixels of t on the new row coincide with those of s
    have hrowpix : ∀ i, i < 8 →
        t.screen.pixels ((x + i) % s.screen.screen_width)
            ((y + n) % s.screen.screen_height)
          = s.screen.pixels ((x + i) % s.screen.screen_width)
            ((y + n) % s.screen.screen_height) := by
      intro i hi
      apply ihP
      intro r hr
      left
      intro he
      have := hrowinj n r (by omega) (by omega) he
      omega
    rw [hstepEq]
    refine ⟨?_, ?_, ?_, ?_⟩
    · refine nonPixelFrame_trans ?_
        ⟨hidx, hsp', hpc', hrpl, hdel, hsnd, hopd, hmod, hmem, hwid, hhei, hfli, hv⟩
      exact rowF
    · intro a bb hcond
      have hstep : (cpu_draw_row x ((y + n) % s.screen.screen_height)
            (s.memory (s.index + n)) t).screen.pixels a bb
          = t.screen.pixels a bb := by
        apply rowP
        rcases hcond n (Nat.lt_succ_self n) with h | h
        · exact Or.inl h
        · right
          intro i hi
          rw [hwid]
          exact h i hi
      rw [hstep]
      apply ihP
      intro r hr
      exact hcond r (Nat.lt_succ_of_lt hr)
    · intro r hr i hi
      rcases Nat.lt_succ_iff_lt_or_eq.1 hr with hrn | hrn
      · have hne : (y + r) % s.screen.screen_height
            ≠ (y + n) % s.screen.screen_height := by
          intro he
          have := hrowinj r n (by omega) (by omega) he
          omega
        have hstep : (cpu_draw_row x ((y + n) % s.screen.screen_height)
              (s.memory (s.index + n)) t).screen.pixels
              ((x + i) % s.screen.screen_width) ((y + r) % s.screen.screen_height)
            = t.screen.pixels ((x + i) % s.screen.screen_width)
              ((y + r) % s.screen.screen_height) := by
          apply rowP
          exact Or.inl hne
        rw [get_screen_pixel_congr hstep]
        exact ihG r hrn i hi
      · subst hrn
        have hbit := rowG i hi
        rw [hwid] at hbit
        rw [hbit, get_screen_pixel_congr (hrowpix i hi)]
    · rw [rowV]
      simp only [hwid]
      have hgets : ∀ i, i < 8 →
          get_screen_pixel t.screen ((x + i) % s.screen.screen_width)
              ((y + n) % s.screen.screen_height)
            = get_screen_pixel s.screen ((x + i) % s.screen.screen_width)
              ((y + n) % s.screen.screen_height) :=
        fun i hi => get_screen_pixel_congr (hrowpix i hi)
      have hiff1 : (∃ i : Nat, i < 8 ∧ colorBit (s.memory (s.index + n)) i = 1 ∧
          get_screen_pixel t.screen ((x + i) % s.screen.screen_width)
            ((y + n) % s.screen.screen_height) = 1) ↔
          (∃ i : Nat, i < 8 ∧ colorBit (s.memory (s.index + n)) i = 1 ∧
          get_screen_pixel s.screen ((x + i) % s.screen.screen_width)
            ((y + n) % s.screen.screen_height) = 1) := by
        constructor
        · rintro ⟨i, hi, hb, hg⟩
          exact ⟨i, hi, hb, by rw [← hgets i hi]; exact hg⟩
        · rintro ⟨i, hi, hb, hg⟩
          exact ⟨i, hi, hb, by rw [hgets i hi]; exact hg⟩
      rw [if_congr hiff1 rfl rfl, ihV, ind_or_merge]
      refine congrArg (fun z => s.v 0xF ||| z) ?_
      refine if_congr ?_ rfl rfl
      exact (exists_lt_succ_iff n _).symm

/-- Characterization of cpu_draw_normal: everything except VF, the pixels and
the flip counter is untouched; the flip counter increases by exactly one; a
pixel hit by sprite row r, column i receives the XOR of sprite bit i with its
previous value at the wrapped coordinate; all other pixels are untouched; and
VF is OR-ed with the collision indicator computed against the pre-draw
screen. -/
theorem cpu_draw_normal_spec (s : CPUState) (x y n : Nat)
    (hw : 8 ≤ s.screen.screen_width) (hh : n ≤ s.screen.screen_height) :
    (cpu_draw_normal s x y n).index = s.index ∧
    (cpu_draw_normal s x y n).memory = s.memory ∧
    (cpu_draw_normal s x y n).operand = s.operand ∧
    (cpu_draw_normal s x y n).mode = s.mode ∧
    (cpu_draw_normal s x y n).screen.screen_width = s.screen.screen_width ∧
    (cpu_draw_normal s x y n).screen.screen_height = s.screen.screen_height ∧
    (∀ j, j ≠ 0xF → (cpu_draw_normal s x y n).v j = s.v j) ∧
    (cpu_draw_normal s x y n).screen.flips = s.screen.flips + 1 ∧
    (∀ a bb, (∀ r, r < n → bb ≠ (y + r) % s.screen.screen_height ∨
        ∀ i, i < 8 → a ≠ (x + i) % s.screen.screen_width) →
      (cpu_draw_normal s x y n).screen.pixels a bb = s.screen.pixels a bb) ∧
    (∀ r, r < n → ∀ i, i < 8 →
      get_screen_pixel (cpu_draw_normal s x y n).screen
          ((x + i) % s.screen.screen_width) ((y + r) % s.screen.screen_height)
        = colorBit (s.memory (s.index + r)) i ^^^
          get_screen_pixel s.screen ((x + i) % s.screen.screen_width)
            ((y + r) % s.screen.screen_height)) ∧
    (cpu_draw_normal s x y n).v 0xF =
      s.v 0xF ||| (if ∃ r : Nat, r < n ∧ ∃ i : Nat, i < 8 ∧
          colorBit (s.memory (s.index + r)) i = 1 ∧
          get_screen_pixel s.screen ((x + i) % s.screen.screen_width)
            ((y + r) % s.screen.screen_height) = 1
        then 1 else 0) := by
  obtain ⟨⟨hidx, hsp', hpc', hrpl, hdel, hsnd, hopd, hmod, hmem, hwid, hhei, hfli, hv⟩,
    hP, hG, hV⟩ := cpu_draw_rows_spec x y n s hw hh
  refine ⟨hidx, hmem, hopd, hmod, hwid, hhei, hv, ?_, hP, hG, hV⟩
  show (update_screen (cpu_draw_rows x y n s).screen).flips = s.screen.flips + 1
  simp [update_screen, hfli]

theorem cpu_draw_ext_bit_frame (x yc b xb : Nat) (s : CPUState) (i : Nat) :
    NonPixelFrame (cpu_draw_ext_bit x yc b xb s i) s := by
  simp only [cpu_draw_ext_bit, NonPixelFrame, draw_screen_pixel]
  split_ifs <;>
    refine ⟨rfl, rfl, rfl, rfl, rfl, rfl, rfl, rfl, rfl, rfl, rfl, rfl, ?_⟩ <;>
    intro j hj <;> simp [updateAt, hj]

theorem cpu_draw_ext_bit_pixels_other (x yc b xb : Nat) (s : CPUState) (i a bb : Nat)
    (h : ¬(a = (x + i + xb * 8) % s.screen.screen_width ∧ bb = yc)) :
    (cpu_draw_ext_bit x yc b xb s i).screen.pixels a bb = s.screen.pixels a bb := by
  simp only [cpu_draw_ext_bit, draw_screen_pixel]
  split_ifs <;> simp [h]

theorem cpu_draw_ext_bit_get_hit (x yc b xb : Nat) (s : CPUState) (i : Nat) :
    get_screen_pixel (cpu_draw_ext_bit x yc b xb s i).screen
        ((x + i + xb * 8) % s.screen.screen_width) yc
      = colorBit b i ^^^
        get_screen_pixel s.screen ((x + i + xb * 8) % s.screen.screen_width) yc := by
  have hc : colorBit b i = 0 ∨ colorBit b i = 1 := by
    have := colorBit_le_one b i
    omega
  have hcur : get_screen_pixel s.screen ((x + i + xb * 8) % s.screen.screen_width) yc = 0 ∨
      get_screen_pixel s.screen ((x + i + xb * 8) % s.screen.screen_width) yc = 1 := by
    have := get_screen_pixel_le_one s.screen ((x + i + xb * 8) % s.screen.screen_width) yc
    omega
  rcases hc with hc | hc <;> rcases hcur with hcur | hcur <;>
    simp [cpu_draw_ext_bit, hc, hcur, get_draw_same]

theorem cpu_draw_ext_bit_vF (x yc b xb : Nat) (s : CPUState) (i : Nat) :
    (cpu_draw_ext_bit x yc b xb s i).v 0xF =
      if colorBit b i = 1 ∧
        get_screen_pixel s.screen ((x + i + xb * 8) % s.screen.screen_width) yc = 1
      then 1 else s.v 0xF := by
  by_cases h : colorBit b i = 1 ∧
      get_screen_pixel s.screen ((x + i + xb * 8) % s.screen.screen_width) yc = 1
  · simp [cpu_draw_ext_bit, h, updateAt]
  · simp only [cpu_draw_ext_bit, if_neg h]
    split_ifs <;> simp

/-- Characterization of the first `k` steps of an extended-mode byte loop at
horizontal byte offset `xb`. -/
theorem cpu_draw_ext_bits_go (x yc b xb : Nat) :
    ∀ (k : Nat), k ≤ 8 → ∀ (s : CPUState), 8 ≤ s.screen.screen_width →
      NonPixelFrame ((List.range k).foldl (cpu_draw_ext_bit x yc b xb) s) s ∧
      (∀ a bb, (bb ≠ yc ∨ ∀ i, i < k → a ≠ (x + i + xb * 8) % s.screen.screen_width) →
        ((List.range k).foldl (cpu_draw_ext_bit x yc b xb) s).screen.pixels a bb
          = s.screen.pixels a bb) ∧
      (∀ i, i < k →
        get_screen_pixel ((List.range k).foldl (cpu_draw_ext_bit x yc b xb) s).screen
            ((x + i + xb * 8) % s.screen.screen_width) yc
          = colorBit b i ^^^
            get_screen_pixel s.screen ((x + i + xb * 8) % s.screen.screen_width) yc) ∧
      ((List.range k).foldl (cpu_draw_ext_bit x yc b xb) s).v 0xF =
        (if ∃ i : Nat, i < k ∧ colorBit b i = 1 ∧
            get_screen_pixel s.screen ((x + i + xb * 8) % s.screen.screen_width) yc = 1
          then 1 else s.v 0xF) := by
  intro k
  induction k with
  | zero =>
    intro _ s _
    refine ⟨nonPixelFrame_refl s, fun a bb _ => rfl,
      fun i hi => absurd hi (Nat.not_lt_zero i), ?_⟩
    simp
  | succ k ih =>
    intro hk s hw
    obtain ⟨ihF, ihP, ihG, ihV⟩ := ih (by omega) s hw
    obtain ⟨hidx, hsp', hpc', hrpl, hdel, hsnd, hopd, hmod, hmem, hwid, hhei, hfli, hv⟩ := ihF
    set t := (List.range k).foldl (cpu_draw_ext_bit x yc b xb) s with ht
    have hfold : (List.range (k + 1)).foldl (cpu_draw_ext_bit x yc b xb) s
        = cpu_draw_ext_bit x yc b xb t k := by
      rw [List.range_succ, List.foldl_append, List.foldl_cons, List.foldl_nil]
    have hinj : ∀ i j : Nat, i < 8 → j < 8 →
        (x + i + xb * 8) % s.screen.screen_width
          = (x + j + xb * 8) % s.screen.screen_width → i = j := by
      intro i j hi hj h
      rw [Nat.add_right_comm x i (xb * 8), Nat.add_right_comm x j (xb * 8)] at h
      exact add_mod_left_inj (x + xb * 8) (lt_of_lt_of_le hi hw) (lt_of_lt_of_le hj hw) h
    have hpk : t.screen.pixels ((x + k + xb * 8) % s.screen.screen_width) yc
        = s.screen.pixels ((x + k + xb * 8) % s.screen.screen_width) yc := by
      apply ihP
      right
      intro i hik he
      have := hinj k i (by omega) (by omega) he
      omega
    have hgk : get_screen_pixel t.screen ((x + k + xb * 8) % s.screen.screen_width) yc
        = get_screen_pixel s.screen ((x + k + xb * 8) % s.screen.screen_width) yc :=
      get_screen_pixel_congr hpk
    rw [hfold]
    refine ⟨?_, ?_, ?_, ?_⟩
    · exact nonPixelFrame_trans (cpu_draw_ext_bit_frame x yc b xb t k)
        ⟨hidx, hsp', hpc', hrpl, hdel, hsnd, hopd, hmod, hmem, hwid, hhei, hfli, hv⟩
    · intro a bb hcond
      have hstep : (cpu_draw_ext_bit x yc b xb t k).screen.pixels a bb
          = t.screen.pixels a bb := by
        apply cpu_draw_ext_bit_pixels_other
        rw [hwid]
        rcases hcond with h | h
        · rintro ⟨_, hbb⟩
          exact h hbb
        · rintro ⟨ha, _⟩
          exact h k (Nat.lt_succ_self k) ha
      rw [hstep]
      apply ihP
      rcases hcond with h | h
      · exact Or.inl h
      · exact Or.inr (fun i hi => h i (Nat.lt_succ_of_lt hi))
    · intro i hi
      rcases Nat.lt_succ_iff_lt_or_eq.1 hi with hik | hik
      · have hne : (x + i + xb * 8) % s.screen.screen_width
            ≠ (x + k + xb * 8) % s.screen.screen_width := by
          intro he
          have := hinj i k (by omega) (by omega) he
          omega
        have hstep : (cpu_draw_ext_bit x yc b xb t k).screen.pixels
            ((x + i + xb * 8) % s.screen.screen_width) yc
            = t.screen.pixels ((x + i + xb * 8) % s.screen.screen_width) yc := by
          apply cpu_draw_ext_bit_pixels_other
          rw [hwid]
          rintro ⟨ha, _⟩
          exact hne ha
        rw [get_screen_pixel_congr hstep]
        exact ihG i hik
      · subst hik
        have hbit := cpu_draw_ext_bit_get_hit x yc b xb t i
        rw [hwid] at hbit
        rw [hbit, hgk]
    · have hstep := cpu_draw_ext_bit_vF x yc b xb t k
      rw [hwid] at hstep
      rw [hstep]
      simp only [hgk]
      rw [ihV]
      by_cases hPk : colorBit b k = 1 ∧
          get_screen_pixel s.screen ((x + k + xb * 8) % s.screen.screen_width) yc = 1
      · have : (∃ i : Nat, i < k + 1 ∧ colorBit b i = 1 ∧
            get_screen_pixel s.screen ((x + i + xb * 8) % s.screen.screen_width) yc = 1) :=
          ⟨k, Nat.lt_succ_self k, hPk⟩
        simp [hPk, this]
      · have hiff : (∃ i : Nat, i < k + 1 ∧ colorBit b i = 1 ∧
            get_screen_pixel s.screen ((x + i + xb * 8) % s.screen.screen_width) yc = 1) ↔
            (∃ i : Nat, i < k ∧ colorBit b i = 1 ∧
            get_screen_pixel s.screen ((x + i + xb * 8) % s.screen.screen_width) yc = 1) := by
          rw [exists_lt_succ_iff]
          constructor
          · rintro (h | h)
            · exact h
            · exact absurd h hPk
          · exact Or.inl
        rw [if_neg hPk, if_congr hiff rfl rfl]

/-- One extended-mode byte loop characterized in one shot (k = 8), reading
its sprite byte and wrapped row coordinate from the state it starts in. -/
theorem cpu_draw_ext_byte_spec (x y yIdx : Nat) (s : CPUState) (xb : Nat)
    (hw : 8 ≤ s.screen.screen_width) :
    NonPixelFrame (cpu_draw_ext_byte x y yIdx s xb) s ∧
    (∀ a bb, (bb ≠ (y + yIdx) % s.screen.screen_height ∨
        ∀ i, i < 8 → a ≠ (x + i + xb * 8) % s.screen.screen_width) →
      (cpu_draw_ext_byte x y yIdx s xb).screen.pixels a bb = s.screen.pixels a bb) ∧
    (∀ i, i < 8 →
      get_screen_pixel (cpu_draw_ext_byte x y yIdx s xb).screen
          ((x + i + xb * 8) % s.screen.screen_width)
          ((y + yIdx) % s.screen.screen_height)
        = colorBit (s.memory (s.index + yIdx * 2 + xb)) i ^^^
          get_screen_pixel s.screen ((x + i + xb * 8) % s.screen.screen_width)
            ((y + yIdx) % s.screen.screen_height)) ∧
    (cpu_draw_ext_byte x y yIdx s xb).v 0xF =
      (if ∃ i : Nat, i < 8 ∧ colorBit (s.memory (s.index + yIdx * 2 + xb)) i = 1 ∧
          get_screen_pixel s.screen ((x + i + xb * 8) % s.screen.screen_width)
            ((y + yIdx) % s.screen.screen_height) = 1
        then 1 else s.v 0xF) :=
  cpu_draw_ext_bits_go x ((y + yIdx) % s.screen.screen_height)
    (s.memory (s.index + yIdx * 2 + xb)) xb 8 le_rfl s hw

/-- Characterization of one full extended-mode row (two consecutive byte
loops, sixteen pixels). -/
theorem cpu_draw_ext_pair_spec (x y yIdx : Nat) (s : CPUState)
    (hw : 16 ≤ s.screen.screen_width) :
    NonPixelFrame ((List.range 2).foldl (cpu_draw_ext_byte x y yIdx) s) s ∧
    (∀ a bb, (bb ≠ (y + yIdx) % s.screen.screen_height ∨
        ∀ xb i, xb < 2 → i < 8 → a ≠ (x + i + xb * 8) % s.screen.screen_width) →
      ((List.range 2).foldl (cpu_draw_ext_byte x y yIdx) s).screen.pixels a bb
        = s.screen.pixels a bb) ∧
    (∀ xb i, xb < 2 → i < 8 →
      get_screen_pixel ((List.range 2).foldl (cpu_draw_ext_byte x y yIdx) s).screen
          ((x + i + xb * 8) % s.screen.screen_width)
          ((y + yIdx) % s.screen.screen_height)
        = colorBit (s.memory (s.index + yIdx * 2 + xb)) i ^^^
          get_screen_pixel s.screen ((x + i + xb * 8) % s.screen.screen_width)
            ((y + yIdx) % s.screen.screen_height)) ∧
    ((List.range 2).foldl (cpu_draw_ext_byte x y yIdx) s).v 0xF =
      (if ∃ xb : Nat, xb < 2 ∧ ∃ i : Nat, i < 8 ∧
          colorBit (s.memory (s.index + yIdx * 2 + xb)) i = 1 ∧
          get_screen_pixel s.screen ((x + i + xb * 8) % s.screen.screen_width)
            ((y + yIdx) % s.screen.screen_height) = 1
        then 1 else s.v 0xF) := by
  have hw8 : 8 ≤ s.screen.screen_width := by omega
  obtain ⟨F0, P0, G0, V0⟩ := cpu_draw_ext_byte_spec x y yIdx s 0 hw8
  set t := cpu_draw_ext_byte x y yIdx s 0 with ht
  obtain ⟨hidx, hsp', hpc', hrpl, hdel, hsnd, hopd, hmod, hmem, hwid, hhei, hfli, hv⟩ := F0
  have hw8t : 8 ≤ t.screen.screen_width := by rw [hwid]; exact hw8
  obtain ⟨F1, P1, G1, V1⟩ := cpu_draw_ext_byte_spec x y yIdx t 1 hw8t
  simp only [hwid, hhei, hmem, hidx] at P1 G1 V1
  have hpair : (List.range 2).foldl (cpu_draw_ext_byte x y yIdx) s
      = cpu_draw_ext_byte x y yIdx t 1 := rfl
  rw [hpair]
  have hinj : ∀ xb i xb' i' : Nat, xb < 2 → i < 8 → xb' < 2 → i' < 8 →
      (x + i + xb * 8) % s.screen.screen_width
        = (x + i' + xb' * 8) % s.screen.screen_width → xb = xb' ∧ i = i' := by
    intro xb i xb' i' hxb hi hxb' hi' h
    rw [Nat.add_assoc, Nat.add_assoc] at h
    have := add_mod_left_inj x (by omega) (by omega) h
    omega
  have hp1 : ∀ i, i < 8 →
      t.screen.pixels ((x + i + 1 * 8) % s.screen.screen_width)
          ((y + yIdx) % s.screen.screen_height)
        = s.screen.pixels ((x + i + 1 * 8) % s.screen.screen_width)
          ((y + yIdx) % s.screen.screen_height) := by
    intro i hi
    apply P0
    right
    intro i' hi' he
    have := hinj 1 i 0 i' (by omega) hi (by omega) hi' he
    omega
  have hg1 : ∀ i, i < 8 →
      get_screen_pixel t.screen ((x + i + 1 * 8) % s.screen.screen_width)
          ((y + yIdx) % s.screen.screen_height)
        = get_screen_pixel s.screen ((x + i + 1 * 8) % s.screen.screen_width)
          ((y + yIdx) % s.screen.screen_height) :=
    fun i hi => get_screen_pixel_congr (hp1 i hi)
  refine ⟨?_, ?_, ?_, ?_⟩
  · exact nonPixelFrame_trans F1
      ⟨hidx, hsp', hpc', hrpl, hdel, hsnd, hopd, hmod, hmem, hwid, hhei, hfli, hv⟩
  · intro a bb hcond
    have hstep : (cpu_draw_ext_byte x y yIdx t 1).screen.pixels a bb
        = t.screen.pixels a bb := by
      apply P1
      rcases hcond with h | h
      · exact Or.inl h
      · exact Or.inr (fun i hi => h 1 i (by omega) hi)
    rw [hstep]
    apply P0
    rcases hcond with h | h
    · exact Or.inl h
    · exact Or.inr (fun i hi => h 0 i (by omega) hi)
  · intro xb i hxb hi
    have hxb01 : xb = 0 ∨ xb = 1 := by omega
    rcases hxb01 with h0 | h1
    · subst h0
      have hstep : (cpu_draw_ext_byte x y yIdx t 1).screen.pixels
          ((x + i + 0 * 8) % s.screen.screen_width)
          ((y + yIdx) % s.screen.screen_height)
          = t.screen.pixels ((x + i + 0 * 8) % s.screen.screen_width)
            ((y + yIdx) % s.screen.screen_height) := by
        apply P1
        right
        intro i' hi' he
        have := hinj 0 i 1 i' (by omega) hi (by omega) hi' he
        omega
      rw [get_screen_pixel_congr hstep]
      exact G0 i hi
    · subst h1
      rw [G1 i hi, hg1 i hi]
  · rw [V1, V0]
    have hiffg : (∃ i : Nat, i < 8 ∧
        colorBit (s.memory (s.index + yIdx * 2 + 1)) i = 1 ∧
        get_screen_pixel t.screen ((x + i + 1 * 8) % s.screen.screen_width)
          ((y + yIdx) % s.screen.screen_height) = 1) ↔
        (∃ i : Nat, i < 8 ∧
        colorBit (s.memory (s.index + yIdx * 2 + 1)) i = 1 ∧
        get_screen_pixel s.screen ((x + i + 1 * 8) % s.screen.screen_width)
          ((y + yIdx) % s.screen.screen_height) = 1) := by
      constructor
      · rintro ⟨i, hi, hb, hg⟩
        exact ⟨i, hi, hb, by rw [← hg1 i hi]; exact hg⟩
      · rintro ⟨i, hi, hb, hg⟩
        exact ⟨i, hi, hb, by rw [hg1 i hi]; exact hg⟩
    rw [if_congr hiffg rfl rfl]
    by_cases hP1 : (∃ i : Nat, i < 8 ∧
        colorBit (s.memory (s.index + yIdx * 2 + 1)) i = 1 ∧
        get_screen_pixel s.screen ((x + i + 1 * 8) % s.screen.screen_width)
          ((y + yIdx) % s.screen.screen_height) = 1)
    · have hex : (∃ xb : Nat, xb < 2 ∧ ∃ i : Nat, i < 8 ∧
          colorBit (s.memory (s.index + yIdx * 2 + xb)) i = 1 ∧
          get_screen_pixel s.screen ((x + i + xb * 8) % s.screen.screen_width)
            ((y + yIdx) % s.screen.screen_height) = 1) := ⟨1, by omega, hP1⟩
      rw [if_pos hP1, if_pos hex]
    · by_cases hP0 : (∃ i : Nat, i < 8 ∧
          colorBit (s.memory (s.index + yIdx * 2 + 0)) i = 1 ∧
          get_screen_pixel s.screen ((x + i + 0 * 8) % s.screen.screen_width)
            ((y + yIdx) % s.screen.screen_height) = 1)
      · have hex : (∃ xb : Nat, xb < 2 ∧ ∃ i : Nat, i < 8 ∧
            colorBit (s.memory (s.index + yIdx * 2 + xb)) i = 1 ∧
            get_screen_pixel s.screen ((x + i + xb * 8) % s.screen.screen_width)
              ((y + yIdx) % s.screen.screen_height) = 1) := ⟨0, by omega, hP0⟩
        rw [if_neg hP1, if_pos hP0, if_pos hex]
      · have hex : ¬ (∃ xb : Nat, xb < 2 ∧ ∃ i : Nat, i < 8 ∧
            colorBit (s.memory (s.index + yIdx * 2 + xb)) i = 1 ∧
            get_screen_pixel s.screen ((x + i + xb * 8) % s.screen.screen_width)
              ((y + yIdx) % s.screen.screen_height) = 1) := by
          rintro ⟨xb, hxb, hrest⟩
          have : xb = 0 ∨ xb = 1 := by omega
          rcases this with h | h
          · subst h
            exact hP0 hrest
          · subst h
            exact hP1 hrest
        rw [if_neg hP1, if_neg hP0, if_neg hex]

/-- Characterization of the row loop of the extended-mode draw. -/
theorem cpu_draw_ext_rows_spec (x y : Nat) :
    ∀ (n : Nat) (s : CPUState), 16 ≤ s.screen.screen_width →
      n ≤ s.screen.screen_height →
      NonPixelFrame (cpu_draw_ext_rows x y n s) s ∧
      (∀ a bb, (∀ r, r < n → bb ≠ (y + r) % s.screen.screen_height ∨
          ∀ xb i, xb < 2 → i < 8 → a ≠ (x + i + xb * 8) % s.screen.screen_width) →
        (cpu_draw_ext_rows x y n s).screen.pixels a bb = s.screen.pixels a bb) ∧
      (∀ r, r < n → ∀ xb i, xb < 2 → i < 8 →
        get_screen_pixel (cpu_draw_ext_rows x y n s).screen
            ((x + i + xb * 8) % s.screen.screen_width)
            ((y + r) % s.screen.screen_height)
          = colorBit (s.memory (s.index + r * 2 + xb)) i ^^^
            get_screen_pixel s.screen ((x + i + xb * 8) % s.screen.screen_width)
              ((y + r) % s.screen.screen_height)) ∧
      (cpu_draw_ext_rows x y n s).v 0xF =
        (if ∃ r : Nat, r < n ∧ ∃ xb : Nat, xb < 2 ∧ ∃ i : Nat, i < 8 ∧
            colorBit (s.memory (s.index + r * 2 + xb)) i = 1 ∧
            get_screen_pixel s.screen ((x + i + xb * 8) % s.screen.screen_width)
              ((y + r) % s.screen.screen_height) = 1
          then 1 else s.v 0xF) := by
  intro n
  induction n with
  | zero =>
    intro s _ _
    refine ⟨nonPixelFrame_refl s, fun a bb _ => rfl,
      fun r hr => absurd hr (Nat.not_lt_zero r), ?_⟩
    simp [cpu_draw_ext_rows]
  | succ n ih =>
    intro s hw hh
    obtain ⟨ihF, ihP, ihG, ihV⟩ := ih s hw (by omega)
    obtain ⟨hidx, hsp', hpc', hrpl, hdel, hsnd, hopd, hmod, hmem, hwid, hhei, hfli, hv⟩ := ihF
    set t := cpu_draw_ext_rows x y n s with ht
    have hfold : cpu_draw_ext_rows x y (n + 1) s
        = (List.range 2).foldl (cpu_draw_ext_byte x y n) t := by
      unfold cpu_draw_ext_rows
      rw [show List.range (n + 1) = List.range n ++ [n] from List.range_succ n,
        List.foldl_append, List.foldl_cons, List.foldl_nil]
      rfl
    have hrowinj : ∀ r r' : Nat, r < s.screen.screen_height →
        r' < s.screen.screen_height →
        (y + r) % s.screen.screen_height = (y + r') % s.screen.screen_height →
        r = r' := by
      intro r r' hr hr' h
      exact add_mod_left_inj y hr hr' h
    obtain ⟨pairF, pairP, pairG, pairV⟩ :=
      cpu_draw_ext_pair_spec x y n t (by rw [hwid]; exact hw)
    simp only [hwid, hhei, hmem, hidx] at pairP pairG pairV
    have hrowpix : ∀ xb i, xb < 2 → i < 8 →
        t.screen.pixels ((x + i + xb * 8) % s.screen.screen_width)
            ((y + n) % s.screen.screen_height)
          = s.screen.pixels ((x + i + xb * 8) % s.screen.screen_width)
            ((y + n) % s.screen.screen_height) := by
      intro xb i hxb hi
      apply ihP
      intro r hr
      left
      intro he
      have := hrowinj n r (by omega) (by omega) he
      omega
    have hgets : ∀ xb i, xb < 2 → i < 8 →
        get_screen_pixel t.screen ((x + i + xb * 8) % s.screen.screen_width)
            ((y + n) % s.screen.screen_height)
          = get_screen_pixel s.screen ((x + i + xb * 8) % s.screen.screen_width)
            ((y + n) % s.screen.screen_height) :=
      fun xb i hxb hi => get_screen_pixel_congr (hrowpix xb i hxb hi)
    rw [hfold]
    refine ⟨?_, ?_, ?_, ?_⟩
    · exact nonPixelFrame_trans pairF
        ⟨hidx, hsp', hpc', hrpl, hdel, hsnd, hopd, hmod, hmem, hwid, hhei, hfli, hv⟩
    · intro a bb hcond
      have hstep : ((List.range 2).foldl (cpu_draw_ext_byte x y n) t).screen.pixels a bb
          = t.screen.pixels a bb := by
        apply pairP
        rcases hcond n (Nat.lt_succ_self n) with h | h
        · exact Or.inl h
        · exact Or.inr h
      rw [hstep]
      apply ihP
      intro r hr
      exact hcond r (Nat.lt_succ_of_lt hr)
    · intro r hr xb i hxb hi
      rcases Nat.lt_succ_iff_lt_or_eq.1 hr with hrn | hrn
      · have hne : (y + r) % s.screen.screen_height
            ≠ (y + n) % s.screen.screen_height := by
          intro he
          have := hrowinj r n (by omega) (by omega) he
          omega
        have hstep : ((List.range 2).foldl (cpu_draw_ext_byte x y n) t).screen.pixels
              ((x + i + xb * 8) % s.screen.screen_width)
              ((y + r) % s.screen.screen_height)
            = t.screen.pixels ((x + i + xb * 8) % s.screen.screen_width)
              ((y + r) % s.screen.screen_height) := by
          apply pairP
          exact Or.inl hne
        rw [get_screen_pixel_congr hstep]
        exact ihG r hrn xb i hxb hi
      · subst hrn
        rw [pairG xb i hxb hi, hgets xb i hxb hi]
    · rw [pairV, ihV]
      have hiffg : (∃ xb : Nat, xb < 2 ∧ ∃ i : Nat, i < 8 ∧
          colorBit (s.memory (s.index + n * 2 + xb)) i = 1 ∧
          get_screen_pixel t.screen ((x + i + xb * 8) % s.screen.screen_width)
            ((y + n) % s.screen.screen_height) = 1) ↔
          (∃ xb : Nat, xb < 2 ∧ ∃ i : Nat, i < 8 ∧
          colorBit (s.memory (s.index + n * 2 + xb)) i = 1 ∧
          get_screen_pixel s.screen ((x + i + xb * 8) % s.screen.screen_width)
            ((y + n) % s.screen.screen_height) = 1) := by
        constructor
        · rintro ⟨xb, hxb, i, hi, hb, hg⟩
          exact ⟨xb, hxb, i, hi, hb, by rw [← hgets xb i hxb hi]; exact hg⟩
        · rintro ⟨xb, hxb, i, hi, hb, hg⟩
          exact ⟨xb, hxb, i, hi, hb, by rw [hgets xb i hxb hi]; exact hg⟩
      rw [if_congr hiffg rfl rfl]
      by_cases hPn : (∃ xb : Nat, xb < 2 ∧ ∃ i : Nat, i < 8 ∧
          colorBit (s.memory (s.index + n * 2 + xb)) i = 1 ∧
          get_screen_pixel s.screen ((x + i + xb * 8) % s.screen.screen_width)
            ((y + n) % s.screen.screen_height) = 1)
      · have hex : (∃ r : Nat, r < n + 1 ∧ ∃ xb : Nat, xb < 2 ∧ ∃ i : Nat, i < 8 ∧
            colorBit (s.memory (s.index + r * 2 + xb)) i = 1 ∧
            get_screen_pixel s.screen ((x + i + xb * 8) % s.screen.screen_width)
              ((y + r) % s.screen.screen_height) = 1) := ⟨n, Nat.lt_succ_self n, hPn⟩
        rw [if_pos hPn, if_pos hex]
      · have hiff : (∃ r : Nat, r < n + 1 ∧ ∃ xb : Nat, xb < 2 ∧ ∃ i : Nat, i < 8 ∧
            colorBit (s.memory (s.index + r * 2 + xb)) i = 1 ∧
            get_screen_pixel s.screen ((x + i + xb * 8) % s.screen.screen_width)
              ((y + r) % s.screen.screen_height) = 1) ↔
            (∃ r : Nat, r < n ∧ ∃ xb : Nat, xb < 2 ∧ ∃ i : Nat, i < 8 ∧
            colorBit (s.memory (s.index + r * 2 + xb)) i = 1 ∧
            get_screen_pixel s.screen ((x + i + xb * 8) % s.screen.screen_width)
              ((y + r) % s.screen.screen_height) = 1) := by
          rw [exists_lt_succ_iff]
          constructor
          · rintro (h | h)
            · exact h
            · exact absurd h hPn
          · exact Or.inl
        rw [if_neg hPn, if_congr hiff rfl rfl]

/-- Characterization of cpu_draw_extended at the 16-row sprite size used by
cpu_draw_sprite. -/
theorem cpu_draw_extended_spec (s : CPUState) (x y n : Nat)
    (hw : 16 ≤ s.screen.screen_width) (hh : n ≤ s.screen.screen_height) :
    (cpu_draw_extended s x y n).index = s.index ∧
    (cpu_draw_extended s x y n).memory = s.memory ∧
    (cpu_draw_extended s x y n).operand = s.operand ∧
    (cpu_draw_extended s x y n).mode = s.mode ∧
    (cpu_draw_extended s x y n).screen.screen_width = s.screen.screen_width ∧
    (cpu_draw_extended s x y n).screen.screen_height = s.screen.screen_height ∧
    (∀ j, j ≠ 0xF → (cpu_draw_extended s x y n).v j = s.v j) ∧
    (cpu_draw_extended s x y n).screen.flips = s.screen.flips + 1 ∧
    (∀ a bb, (∀ r, r < n → bb ≠ (y + r) % s.screen.screen_height ∨
        ∀ xb i, xb < 2 → i < 8 → a ≠ (x + i + xb * 8) % s.screen.screen_width) →
      (cpu_draw_extended s x y n).screen.pixels a bb = s.screen.pixels a bb) ∧
    (∀ r, r < n → ∀ xb i, xb < 2 → i < 8 →
      get_screen_pixel (cpu_draw_extended s x y n).screen
          ((x + i + xb * 8) % s.screen.screen_width)
          ((y + r) % s.screen.screen_height)
        = colorBit (s.memory (s.index + r * 2 + xb)) i ^^^
          get_screen_pixel s.screen ((x + i + xb * 8) % s.screen.screen_width)
            ((y + r) % s.screen.screen_height)) ∧
    (cpu_draw_extended s x y n).v 0xF =
      (if ∃ r : Nat, r < n ∧ ∃ xb : Nat, xb < 2 ∧ ∃ i : Nat, i < 8 ∧
          colorBit (s.memory (s.index + r * 2 + xb)) i = 1 ∧
          get_screen_pixel s.screen ((x + i + xb * 8) % s.screen.screen_width)
            ((y + r) % s.screen.screen_height) = 1
        then 1 else s.v 0xF) := by
  obtain ⟨⟨hidx, hsp', hpc', hrpl, hdel, hsnd, hopd, hmod, hmem, hwid, hhei, hfli, hv⟩,
    hP, hG, hV⟩ := cpu_draw_ext_rows_spec x y n s hw hh
  refine ⟨hidx, hmem, hopd, hmod, hwid, hhei, hv, ?_, hP, hG, hV⟩
  show (update_screen (cpu_draw_ext_rows x y n s).screen).flips = s.screen.flips + 1
  simp [update_screen, hfli]

theorem xor_one_eq_one_iff (v : Nat) (hv : v ≤ 1) : (1 ^^^ v = 1) ↔ v = 0 := by
  interval_cases v <;> decide

/-- Drawing the same normal-mode sprite twice, clearing VF before each draw
(as cpu_draw_sprite does), restores every pixel and leaves VF equal to the
indicator of a second-draw collision: some sprite bit 1 over an originally
unlit pixel. -/
theorem double_draw_normal (s t1 : CPUState) (x y n : Nat)
    (hw : 8 ≤ s.screen.screen_width) (hh : n ≤ s.screen.screen_height)
    (ht1 : t1 = cpu_draw_normal { s with v := updateAt s.v 0xF 0 } x y n) :
    (∀ a bb, get_screen_pixel
        (cpu_draw_normal { t1 with v := updateAt t1.v 0xF 0 } x y n).screen a bb
      = get_screen_pixel s.screen a bb) ∧
    (cpu_draw_normal { t1 with v := updateAt t1.v 0xF 0 } x y n).v 0xF =
      (if ∃ r : Nat, r < n ∧ ∃ i : Nat, i < 8 ∧
          colorBit (s.memory (s.index + r)) i = 1 ∧
          get_screen_pixel s.screen ((x + i) % s.screen.screen_width)
            ((y + r) % s.screen.screen_height) = 0
        then 1 else 0) := by
  set s1p := ({ s with v := updateAt s.v 0xF 0 } : CPUState) with hs1p
  set t1p := ({ t1 with v := updateAt t1.v 0xF 0 } : CPUState) with ht1p
  have hscr1 : s1p.screen = s.screen := rfl
  have hmem1 : s1p.memory = s.memory := rfl
  have hidx1 : s1p.index = s.index := rfl
  obtain ⟨h1a, h1b, h1c, h1d, h1e, h1f, h1g, h1h, hP1, hG1, hV1⟩ :=
    cpu_draw_normal_spec s1p x y n hw hh
  rw [← ht1] at h1a h1b h1c h1d h1e h1f h1g h1h hP1 hG1 hV1
  simp only [hscr1, hmem1, hidx1] at hP1 hG1 hV1 h1a h1b h1e h1f
  -- h1a : t1.index = s.index, h1b : t1.memory = s.memory,
  -- h1e/h1f : screen dimensions preserved by the first draw
  have hscr2 : t1p.screen = t1.screen := rfl
  have hmem2 : t1p.memory = t1.memory := rfl
  have hidx2 : t1p.index = t1.index := rfl
  have hw2 : 8 ≤ t1p.screen.screen_width := by rw [hscr2, h1e]; exact hw
  have hh2 : n ≤ t1p.screen.screen_height := by rw [hscr2, h1f]; exact hh
  obtain ⟨h2a, h2b, h2c, h2d, h2e, h2f, h2g, h2h, hP2, hG2, hV2⟩ :=
    cpu_draw_normal_spec t1p x y n hw2 hh2
  simp only [hscr2, hmem2, hidx2, h1a, h1b, h1e, h1f] at hP2 hG2 hV2
  have hgle : ∀ a bb, get_screen_pixel s.screen a bb ≤ 1 :=
    fun a bb => get_screen_pixel_le_one s.screen a bb
  constructor
  · intro a bb
    by_cases hhit : ∃ r : Nat, r < n ∧ ∃ i : Nat, i < 8 ∧
        a = (x + i) % s.screen.screen_width ∧ bb = (y + r) % s.screen.screen_height
    · obtain ⟨r, hr, i, hi, ha, hbb⟩ := hhit
      subst ha
      subst hbb
      rw [hG2 r hr i hi, hG1 r hr i hi]
      exact Nat.xor_cancel_left _ _
    · have hcond : ∀ r, r < n → bb ≠ (y + r) % s.screen.screen_height ∨
          ∀ i, i < 8 → a ≠ (x + i) % s.screen.screen_width := by
        intro r hr
        by_cases hbb : bb = (y + r) % s.screen.screen_height
        · right
          intro i hi ha
          exact hhit ⟨r, hr, i, hi, ha, hbb⟩
        · left
          exact hbb
      rw [get_screen_pixel_congr (hP2 a bb hcond), get_screen_pixel_congr (hP1 a bb hcond)]
  · rw [hV2, updateAt_same, Nat.zero_or]
    refine if_congr ?_ rfl rfl
    constructor
    · rintro ⟨r, hr, i, hi, hb, hg⟩
      refine ⟨r, hr, i, hi, hb, ?_⟩
      rw [hG1 r hr i hi, hb] at hg
      exact (xor_one_eq_one_iff _ (hgle _ _)).1 hg
    · rintro ⟨r, hr, i, hi, hb, hg⟩
      refine ⟨r, hr, i, hi, hb, ?_⟩
      rw [hG1 r hr i hi, hb, hg]
      decide

/-- Drawing the same 16x16 extended-mode sprite twice, clearing VF before
each draw, restores every pixel and leaves VF equal to the indicator of a
second-draw collision. -/
theorem double_draw_ext (s t1 : CPUState) (x y : Nat)
    (hw : 16 ≤ s.screen.screen_width) (hh : 16 ≤ s.screen.screen_height)
    (ht1 : t1 = cpu_draw_extended { s with v := updateAt s.v 0xF 0 } x y 16) :
    (∀ a bb, get_screen_pixel
        (cpu_draw_extended { t1 with v := updateAt t1.v 0xF 0 } x y 16).screen a bb
      = get_screen_pixel s.screen a bb) ∧
    (cpu_draw_extended { t1 with v := updateAt t1.v 0xF 0 } x y 16).v 0xF =
      (if ∃ r : Nat, r < 16 ∧ ∃ xb : Nat, xb < 2 ∧ ∃ i : Nat, i < 8 ∧
          colorBit (s.memory (s.index + r * 2 + xb)) i = 1 ∧
          get_screen_pixel s.screen ((x + i + xb * 8) % s.screen.screen_width)
            ((y + r) % s.screen.screen_height) = 0
        then 1 else 0) := by
  set s1p := ({ s with v := updateAt s.v 0xF 0 } : CPUState) with hs1p
  set t1p := ({ t1 with v := updateAt t1.v 0xF 0 } : CPUState) with ht1p
  have hscr1 : s1p.screen = s.screen := rfl
  have hmem1 : s1p.memory = s.memory := rfl
  have hidx1 : s1p.index = s.index := rfl
  obtain ⟨h1a, h1b, h1c, h1d, h1e, h1f, h1g, h1h, hP1, hG1, hV1⟩ :=
    cpu_draw_extended_spec s1p x y 16 hw hh
  rw [← ht1] at h1a h1b h1c h1d h1e h1f h1g h1h hP1 hG1 hV1
  simp only [hscr1, hmem1, hidx1] at hP1 hG1 hV1 h1a h1b h1e h1f
  have hscr2 : t1p.screen = t1.screen := rfl
  have hmem2 : t1p.memory = t1.memory := rfl
  have hidx2 : t1p.index = t1.index := rfl
  have hw2 : 16 ≤ t1p.screen.screen_width := by rw [hscr2, h1e]; exact hw
  have hh2 : 16 ≤ t1p.screen.screen_height := by rw [hscr2, h1f]; exact hh
  obtain ⟨h2a, h2b, h2c, h2d, h2e, h2f, h2g, h2h, hP2, hG2, hV2⟩ :=
    cpu_draw_extended_spec t1p x y 16 hw2 hh2
  simp only [hscr2, hmem2, hidx2, h1a, h1b, h1e, h1f] at hP2 hG2 hV2
  have hgle : ∀ a bb, get_screen_pixel s.screen a bb ≤ 1 :=
    fun a bb => get_screen_pixel_le_one s.screen a bb
  constructor
  · intro a bb
    by_cases hhit : ∃ r : Nat, r < 16 ∧ ∃ xb : Nat, xb < 2 ∧ ∃ i : Nat, i < 8 ∧
        a = (x + i + xb * 8) % s.screen.screen_width ∧
        bb = (y + r) % s.screen.screen_height
    · obtain ⟨r, hr, xb, hxb, i, hi, ha, hbb⟩ := hhit
      subst ha
      subst hbb
      rw [hG2 r hr xb i hxb hi, hG1 r hr xb i hxb hi]
      exact Nat.xor_cancel_left _ _
    · have hcond : ∀ r, r < 16 → bb ≠ (y + r) % s.screen.screen_height ∨
          ∀ xb i, xb < 2 → i < 8 → a ≠ (x + i + xb * 8) % s.screen.screen_width := by
        intro r hr
        by_cases hbb : bb = (y + r) % s.screen.screen_height
        · right
          intro xb i hxb hi ha
          exact hhit ⟨r, hr, xb, hxb, i, hi, ha, hbb⟩
        · left
          exact hbb
      rw [get_screen_pixel_congr (hP2 a bb hcond), get_screen_pixel_congr (hP1 a bb hcond)]
  · rw [hV2, updateAt_same]
    refine if_congr ?_ rfl rfl
    constructor
    · rintro ⟨r, hr, xb, hxb, i, hi, hb, hg⟩
      refine ⟨r, hr, xb, hxb, i, hi, hb, ?_⟩
      rw [hG1 r hr xb i hxb hi, hb] at hg
      exact (xor_one_eq_one_iff _ (hgle _ _)).1 hg
    · rintro ⟨r, hr, xb, hxb, i, hi, hb, hg⟩
      refine ⟨r, hr, xb, hxb, i, hi, hb, ?_⟩
      rw [hG1 r hr xb i hxb hi, hb, hg]
      decide

/-- C6 counterexample: the claim states that after drawing the same sprite
twice, VF reflects the presence of an original lit-pixel collision.  On the
all-dark screen of drawState (first conjunct: every stored pixel is 0, so the
first draw collides with nothing), double-drawing the one-byte sprite 0x80 at
(0,0) leaves VF = 1 — the code reports the second draw's collisions with the
pixels the first draw itself lit, not the original collisions, for which the
claim requires VF = 0.  The affected pixel is still restored. -/
theorem C6_double_draw_vf_counterexample :
    drawState.screen.pixels = (fun _ _ => 0) ∧
    (cpu_draw_sprite (cpu_draw_sprite drawState)).v 0xF = 1 ∧
    get_screen_pixel (cpu_draw_sprite (cpu_draw_sprite drawState)).screen 0 0 =
      get_screen_pixel drawState.screen 0 0 := by
  refine ⟨rfl, by decide, by decide⟩

/-- C6 amended: for every sprite-draw operand whose coordinate registers are
not VF, executing the same draw instruction twice in succession restores
every display pixel to its pre-draw value, and after the second draw VF is 1
exactly when some sprite bit 1 lands on an originally *unlit* pixel — the
collisions of the second draw with the pixels the first draw lit — and 0
otherwise; it does not report the first draw's collisions with originally
lit pixels. -/
theorem C6_double_draw_restores_and_vf (s : CPUState)
    (hxs : (s.operand &&& ADDRESS_3) >>> 8 ≠ 0xF)
    (hys : (s.operand &&& ADDRESS_4) >>> 4 ≠ 0xF)
    (hw : 16 ≤ s.screen.screen_width)
    (hh16 : 16 ≤ s.screen.screen_height)
    (hnh : s.operand &&& ADDRESS_6 ≤ s.screen.screen_height)
    (hbytes : ∀ a, s.memory a < 256) :
    (∀ a bb, get_screen_pixel (cpu_draw_sprite (cpu_draw_sprite s)).screen a bb
        = get_screen_pixel s.screen a bb) ∧
    (cpu_draw_sprite (cpu_draw_sprite s)).v 0xF =
      (if ∃ r : Nat,
          r < (if s.mode = CpuMode.extended ∧ s.operand &&& ADDRESS_6 = 0 then 16
               else s.operand &&& ADDRESS_6) ∧
          ∃ c : Nat,
          c < (if s.mode = CpuMode.extended ∧ s.operand &&& ADDRESS_6 = 0 then 16 else 8) ∧
          (if s.mode = CpuMode.extended ∧ s.operand &&& ADDRESS_6 = 0
            then colorBit (s.memory (s.index + r * 2 + c / 8)) (c % 8)
            else colorBit (s.memory (s.index + r)) c) = 1 ∧
          get_screen_pixel s.screen
            ((s.v ((s.operand &&& ADDRESS_3) >>> 8) + c) % s.screen.screen_width)
            ((s.v ((s.operand &&& ADDRESS_4) >>> 4) + r) % s.screen.screen_height) = 0
        then 1 else 0) := by
  set t1 := cpu_draw_sprite s with ht1def
  by_cases hpath : s.mode = CpuMode.extended ∧ s.operand &&& ADDRESS_6 = 0
  · -- extended 16x16 path
    have hd1 : cpu_draw_sprite s
        = cpu_draw_extended { s with v := updateAt s.v 0xF 0 }
          (s.v ((s.operand &&& ADDRESS_3) >>> 8))
          (s.v ((s.operand &&& ADDRESS_4) >>> 4)) 16 := by
      simp only [cpu_draw_sprite]
      rw [if_pos hpath]
    obtain ⟨h1a, h1b, h1c, h1d, h1e, h1f, h1g, h1h, _, _, _⟩ :=
      cpu_draw_extended_spec { s with v := updateAt s.v 0xF 0 }
        (s.v ((s.operand &&& ADDRESS_3) >>> 8))
        (s.v ((s.operand &&& ADDRESS_4) >>> 4)) 16 hw hh16
    rw [← hd1, ← ht1def] at h1c h1d h1g
    have hto : t1.operand = s.operand := h1c
    have htm : t1.mode = s.mode := h1d
    have htvx : t1.v ((s.operand &&& ADDRESS_3) >>> 8)
        = s.v ((s.operand &&& ADDRESS_3) >>> 8) := by
      rw [h1g _ hxs]
      exact updateAt_other s.v 0xF 0 _ hxs
    have htvy : t1.v ((s.operand &&& ADDRESS_4) >>> 4)
        = s.v ((s.operand &&& ADDRESS_4) >>> 4) := by
      rw [h1g _ hys]
      exact updateAt_other s.v 0xF 0 _ hys
    have hd2 : cpu_draw_sprite t1
        = cpu_draw_extended { t1 with v := updateAt t1.v 0xF 0 }
          (s.v ((s.operand &&& ADDRESS_3) >>> 8))
          (s.v ((s.operand &&& ADDRESS_4) >>> 4)) 16 := by
      simp only [cpu_draw_sprite, hto, htm, htvx, htvy]
      rw [if_pos hpath]
    obtain ⟨hrest, hvf⟩ := double_draw_ext s t1
      (s.v ((s.operand &&& ADDRESS_3) >>> 8))
      (s.v ((s.operand &&& ADDRESS_4) >>> 4)) hw hh16 (ht1def.trans hd1)
    rw [hd2]
    refine ⟨hrest, ?_⟩
    rw [hvf]
    simp only [if_pos hpath]
    refine if_congr ?_ rfl rfl
    constructor
    · rintro ⟨r, hr, xb, hxb, i, hi, hb, hg⟩
      refine ⟨r, hr, i + 8 * xb, by omega, ?_, ?_⟩
      · have e1 : (i + 8 * xb) / 8 = xb := by omega
        have e2 : (i + 8 * xb) % 8 = i := by omega
        rw [e1, e2]
        exact hb
      · have e3 : s.v ((s.operand &&& ADDRESS_3) >>> 8) + (i + 8 * xb)
            = s.v ((s.operand &&& ADDRESS_3) >>> 8) + i + xb * 8 := by omega
        rw [e3]
        exact hg
    · rintro ⟨r, hr, c, hc, hb, hg⟩
      refine ⟨r, hr, c / 8, by omega, c % 8, by omega, ?_, ?_⟩
      · exact hb
      · have e3 : s.v ((s.operand &&& ADDRESS_3) >>> 8) + c % 8 + c / 8 * 8
            = s.v ((s.operand &&& ADDRESS_3) >>> 8) + c := by omega
        rw [e3]
        exact hg
  · -- normal N-byte path
    have hw8 : 8 ≤ s.screen.screen_width := by omega
    have hd1 : cpu_draw_sprite s
        = cpu_draw_normal { s with v := updateAt s.v 0xF 0 }
          (s.v ((s.operand &&& ADDRESS_3) >>> 8))
          (s.v ((s.operand &&& ADDRESS_4) >>> 4)) (s.operand &&& ADDRESS_6) := by
      simp only [cpu_draw_sprite]
      rw [if_neg hpath]
    obtain ⟨h1a, h1b, h1c, h1d, h1e, h1f, h1g, h1h, _, _, _⟩ :=
      cpu_draw_normal_spec { s with v := updateAt s.v 0xF 0 }
        (s.v ((s.operand &&& ADDRESS_3) >>> 8))
        (s.v ((s.operand &&& ADDRESS_4) >>> 4)) (s.operand &&& ADDRESS_6) hw8 hnh
    rw [← hd1, ← ht1def] at h1c h1d h1g
    have hto : t1.operand = s.operand := h1c
    have htm : t1.mode = s.mode := h1d
    have htvx : t1.v ((s.operand &&& ADDRESS_3) >>> 8)
        = s.v ((s.operand &&& ADDRESS_3) >>> 8) := by
      rw [h1g _ hxs]
      exact updateAt_other s.v 0xF 0 _ hxs
    have htvy : t1.v ((s.operand &&& ADDRESS_4) >>> 4)
        = s.v ((s.operand &&& ADDRESS_4) >>> 4) := by
      rw [h1g _ hys]
      exact updateAt_other s.v 0xF 0 _ hys
    have hd2 : cpu_draw_sprite t1
        = cpu_draw_normal { t1 with v := updateAt t1.v 0xF 0 }
          (s.v ((s.operand &&& ADDRESS_3) >>> 8))
          (s.v ((s.operand &&& ADDRESS_4) >>> 4)) (s.operand &&& ADDRESS_6) := by
      simp only [cpu_draw_sprite, hto, htm, htvx, htvy]
      rw [if_neg hpath]
    obtain ⟨hrest, hvf⟩ := double_draw_normal s t1
      (s.v ((s.operand &&& ADDRESS_3) >>> 8))
      (s.v ((s.operand &&& ADDRESS_4) >>> 4)) (s.operand &&& ADDRESS_6)
      hw8 hnh (ht1def.trans hd1)
    rw [hd2]
    refine ⟨hrest, ?_⟩
    rw [hvf]
    simp only [if_neg hpath]

/-- C6 witness: the amended double-draw property instantiated on drawState
(one-byte sprite 0x80 drawn at (0,0) on the blank 64x32 normal-mode
screen). -/
theorem C6_double_draw_restores_and_vf_witness :
    (∀ a bb, get_screen_pixel (cpu_draw_sprite (cpu_draw_sprite drawState)).screen a bb
        = get_screen_pixel drawState.screen a bb) ∧
    (cpu_draw_sprite (cpu_draw_sprite drawState)).v 0xF =
      (if ∃ r : Nat,
          r < (if drawState.mode = CpuMode.extended ∧ drawState.operand &&& ADDRESS_6 = 0
               then 16 else drawState.operand &&& ADDRESS_6) ∧
          ∃ c : Nat,
          c < (if drawState.mode = CpuMode.extended ∧ drawState.operand &&& ADDRESS_6 = 0
               then 16 else 8) ∧
          (if drawState.mode = CpuMode.extended ∧ drawState.operand &&& ADDRESS_6 = 0
            then colorBit (drawState.memory (drawState.index + r * 2 + c / 8)) (c % 8)
            else colorBit (drawState.memory (drawState.index + r)) c) = 1 ∧
          get_screen_pixel drawState.screen
            ((drawState.v ((drawState.operand &&& ADDRESS_3) >>> 8) + c)
              % drawState.screen.screen_width)
            ((drawState.v ((drawState.operand &&& ADDRESS_4) >>> 4) + r)
              % drawState.screen.screen_height) = 0
        then 1 else 0) :=
  C6_double_draw_restores_and_vf drawState (by decide) (by decide) (by decide)
    (by decide) (by decide)
    (fun a => by
      show updateAt baseState.memory 0 0x80 a < 256
      unfold updateAt
      split
      · decide
      · exact (by decide : (0 : Nat) < 256))

/-- C7: for every draw instruction — Normal N-byte on a display at least 8
wide and N tall, or Extended 16x16 on a display at least 16 wide and tall —
the destination pixel of sprite row `row` and column `col` at the per-pixel
wrapped coordinate ((x+col) mod width, (y+row) mod height) becomes the XOR of
the incoming sprite bit (MSB leftmost) with the existing pixel value, and the
display's flip operation is invoked exactly once per draw, after the pixel
writes. -/
theorem C7_draw_xor_and_single_flip (s : CPUState) (x y n row col : Nat)
    (hbytes : ∀ a, s.memory a < 256) :
    (8 ≤ s.screen.screen_width → n ≤ s.screen.screen_height → row < n → col < 8 →
      get_screen_pixel (cpu_draw_normal s x y n).screen
          ((x + col) % s.screen.screen_width) ((y + row) % s.screen.screen_height)
        = colorBit (s.memory (s.index + row)) col ^^^
          get_screen_pixel s.screen ((x + col) % s.screen.screen_width)
            ((y + row) % s.screen.screen_height)) ∧
    (8 ≤ s.screen.screen_width → n ≤ s.screen.screen_height →
      (cpu_draw_normal s x y n).screen.flips = s.screen.flips + 1) ∧
    (16 ≤ s.screen.screen_width → 16 ≤ s.screen.screen_height → row < 16 → col < 16 →
      get_screen_pixel (cpu_draw_extended s x y 16).screen
          ((x + col) % s.screen.screen_width) ((y + row) % s.screen.screen_height)
        = colorBit (s.memory (s.index + row * 2 + col / 8)) (col % 8) ^^^
          get_screen_pixel s.screen ((x + col) % s.screen.screen_width)
            ((y + row) % s.screen.screen_height)) ∧
    (16 ≤ s.screen.screen_width → 16 ≤ s.screen.screen_height →
      (cpu_draw_extended s x y 16).screen.flips = s.screen.flips + 1) := by
  refine ⟨?_, ?_, ?_, ?_⟩
  · intro hw hh hr hc
    obtain ⟨_, _, _, _, _, _, _, _, _, hG, _⟩ := cpu_draw_normal_spec s x y n hw hh
    exact hG row hr col hc
  · intro hw hh
    obtain ⟨_, _, _, _, _, _, _, hfl, _, _, _⟩ := cpu_draw_normal_spec s x y n hw hh
    exact hfl
  · intro hw hh hr hc
    obtain ⟨_, _, _, _, _, _, _, _, _, hG, _⟩ :=
      cpu_draw_extended_spec s x y 16 hw (by omega)
    have hxc : x + col = x + col % 8 + col / 8 * 8 := by omega
    rw [hxc]
    exact hG row hr (col / 8) (col % 8) (by omega) (by omega)
  · intro hw hh
    obtain ⟨_, _, _, _, _, _, _, hfl, _, _, _⟩ :=
      cpu_draw_extended_spec s x y 16 hw (by omega)
    exact hfl

/-- C7 witness: the XOR and single-flip properties instantiated on drawState
at sprite row 0, column 0. -/
theorem C7_draw_xor_and_single_flip_witness :
    (get_screen_pixel (cpu_draw_normal drawState 0 0 1).screen
        ((0 + 0) % drawState.screen.screen_width)
        ((0 + 0) % drawState.screen.screen_height)
      = colorBit (drawState.memory (drawState.index + 0)) 0 ^^^
        get_screen_pixel drawState.screen ((0 + 0) % drawState.screen.screen_width)
          ((0 + 0) % drawState.screen.screen_height)) ∧
    ((cpu_draw_normal drawState 0 0 1).screen.flips = drawState.screen.flips + 1) ∧
    (get_screen_pixel (cpu_draw_extended drawState 0 0 16).screen
        ((0 + 0) % drawState.screen.screen_width)
        ((0 + 0) % drawState.screen.screen_height)
      = colorBit (drawState.memory (drawState.index + 0 * 2 + 0 / 8)) (0 % 8) ^^^
        get_screen_pixel drawState.screen ((0 + 0) % drawState.screen.screen_width)
          ((0 + 0) % drawState.screen.screen_height)) ∧
    ((cpu_draw_extended drawState 0 0 16).screen.flips = drawState.screen.flips + 1) := by
  obtain ⟨h1, h2, h3, h4⟩ := C7_draw_xor_and_single_flip drawState 0 0 1 0 0
    (fun a => by
      show updateAt baseState.memory 0 0x80 a < 256
      unfold updateAt
      split
      · decide
      · exact (by decide : (0 : Nat) < 256))
  exact ⟨h1 (by decide) (by decide) (by decide) (by decide),
    h2 (by decide) (by decide),
    h3 (by decide) (by decide) (by decide) (by decide),
    h4 (by decide) (by decide)⟩

end Chip8
